import Mathlib

/-!
# TooHoo: a shallow embedding of `main.go`

The game state of `main.go` is embedded as plain Lean structures and its
methods as functions on them.

* `int8` and `int32` fields are integers; every arithmetic result is wrapped
  with `int8` / `int32` (two's complement).
* `float32` and `float64` values are elements of `Flt`: a rational, or one
  of the IEEE special values `+Inf`, `-Inf`, `NaN`.  The special values
  follow IEEE-754, so that a division by zero does what it does in Go; the
  sign of zero is not modelled.
* The `float32` sums and differences of `Player.Move` and of the offset step
  of `CreateProjectiles`, whose results the program compares with a bound,
  are rounded to `float32` (`Flt.add32`, `Flt.sub32`, `Flt.round32`: nearest,
  ties to even, with subnormals and overflow to infinity).  The other finite
  arithmetic (the geometry of the cone, the motion of the projectiles,
  raylib's collision test) is exact.
* A Go run-time panic is the `Except.error` result.
* Functions of `math` and of raylib, and the window size, are the fields of
  `Host`.
-/

namespace TooHoo

/-! ## Machine numbers -/

/-- Two's complement wrap of an integer to the range of `int8`. -/
def int8 (x : Int) : Int := (x + 128) % 256 - 128

/-- Two's complement wrap of an integer to the range of `int32`. -/
def int32 (x : Int) : Int := (x + 2147483648) % 4294967296 - 2147483648

/-- The values of type `int8`. -/
def isInt8 (x : Int) : Prop := -128 ≤ x ∧ x ≤ 127

/-- The values of type `int32`. -/
def isInt32 (x : Int) : Prop := -2147483648 ≤ x ∧ x ≤ 2147483647

instance (x : Int) : Decidable (isInt8 x) := by unfold isInt8; infer_instance

instance (x : Int) : Decidable (isInt32 x) := by unfold isInt32; infer_instance

/-- A floating-point value: a finite number, an infinity or not-a-number. -/
inductive Flt where
  | fin (q : ℚ)
  | pinf
  | ninf
  | nan
  deriving DecidableEq

namespace Flt

/-- The infinity of the given sign. -/
def inf (negative : Bool) : Flt := if negative then ninf else pinf

/-- Unary minus. -/
def neg : Flt → Flt
  | fin q => fin (-q)
  | pinf => ninf
  | ninf => pinf
  | nan => nan

/-- Floating-point addition. -/
def add : Flt → Flt → Flt
  | fin a, fin b => fin (a + b)
  | nan, _ => nan
  | _, nan => nan
  | pinf, ninf => nan
  | ninf, pinf => nan
  | pinf, _ => pinf
  | ninf, _ => ninf
  | fin _, pinf => pinf
  | fin _, ninf => ninf

/-- Floating-point subtraction. -/
def sub (a b : Flt) : Flt := add a (neg b)

/-- A finite number times the infinity of the given sign. -/
def mulInf (a : ℚ) (negative : Bool) : Flt :=
  if a = 0 then nan else inf (xor (decide (a < 0)) negative)

/-- Floating-point multiplication. -/
def mul : Flt → Flt → Flt
  | fin a, fin b => fin (a * b)
  | nan, _ => nan
  | _, nan => nan
  | fin a, pinf => mulInf a false
  | fin a, ninf => mulInf a true
  | pinf, fin b => mulInf b false
  | ninf, fin b => mulInf b true
  | pinf, pinf => pinf
  | pinf, ninf => ninf
  | ninf, pinf => ninf
  | ninf, ninf => pinf

/-- Floating-point division; a finite non-zero number over zero is an
infinity and zero over zero is not-a-number. -/
def div : Flt → Flt → Flt
  | fin a, fin b =>
    if b = 0 then (if a = 0 then nan else inf (decide (a < 0))) else fin (a / b)
  | nan, _ => nan
  | _, nan => nan
  | fin _, pinf => fin 0
  | fin _, ninf => fin 0
  | pinf, fin b => inf (decide (b < 0))
  | ninf, fin b => inf (!decide (b < 0))
  | pinf, pinf => nan
  | pinf, ninf => nan
  | ninf, pinf => nan
  | ninf, ninf => nan

/-- Go's `a < b`; false whenever an operand is not-a-number. -/
def lt : Flt → Flt → Bool
  | fin a, fin b => decide (a < b)
  | nan, _ => false
  | _, nan => false
  | ninf, ninf => false
  | ninf, _ => true
  | pinf, _ => false
  | fin _, pinf => true
  | fin _, ninf => false

/-- Go's `a > b`. -/
def gt (a b : Flt) : Bool := lt b a

/-- Conversion of an integer to a floating-point value. -/
def ofInt (n : Int) : Flt := fin (n : ℚ)

/-- A function of package `math` on a floating-point argument: not-a-number
outside the finite numbers. -/
def lift (f : ℚ → ℚ) : Flt → Flt
  | fin q => fin (f q)
  | _ => nan

end Flt

/-- The integer nearest to `x`, the even one of the two when `x` lies half
way between them. -/
def roundHalfEven (x : ℚ) : Int :=
  if x - x.floor < 1 / 2 then x.floor
  else if 1 / 2 < x - x.floor then x.floor + 1
  else if x.floor % 2 = 0 then x.floor else x.floor + 1

/-- The first of the powers of two `p, p/2, p/4, ...` that is at most `a`,
or the last of them looked at when `fuel` halvings have found none. -/
def binadePow : Nat → ℚ → ℚ → ℚ
  | 0, p, _ => p
  | fuel + 1, p, a => if p ≤ a then p else binadePow fuel (p / 2) a

/-- The distance between neighbouring `float32` values at the magnitude `a`:
`2^(e-23)` for the exponent `e` of `a`, which is at most 127 and at least
-126 (the subnormal numbers). -/
def ulp32 (a : ℚ) : ℚ := binadePow 253 (2 ^ 127) a / 2 ^ 23

/-- The magnitude `a` rounded to a multiple of `ulp32 a`. -/
def roundMag32 (a : ℚ) : ℚ := roundHalfEven (a / ulp32 a) * ulp32 a

namespace Flt

/-- The `float32` nearest to a rational, ties to even; an infinity when the
rounded magnitude reaches `2^128`. -/
def round32 (q : ℚ) : Flt :=
  if 2 ^ 128 ≤ roundMag32 |q| then inf (decide (q < 0))
  else fin (if q < 0 then -roundMag32 |q| else roundMag32 |q|)

/-- The `float32` sum: the sum of two finite numbers is rounded. -/
def add32 : Flt → Flt → Flt
  | fin a, fin b => round32 (a + b)
  | a, b => add a b

/-- The `float32` difference: the difference of two finite numbers is
rounded. -/
def sub32 : Flt → Flt → Flt
  | fin a, fin b => round32 (a - b)
  | a, b => sub a b

instance : Add Flt := ⟨add⟩

instance : Sub Flt := ⟨sub⟩

instance : Neg Flt := ⟨neg⟩

instance : Mul Flt := ⟨mul⟩

instance : Div Flt := ⟨div⟩

end Flt

/-! ## Data model -/

/-- The type `rl.Vector2`. -/
structure Vector2 where
  X : Flt
  Y : Flt
  deriving DecidableEq

/-- The type `rl.Rectangle`. -/
structure Rectangle where
  X : Flt
  Y : Flt
  Width : Flt
  Height : Flt
  deriving DecidableEq

/-- The type `rl.Color`. -/
structure Color where
  R : Nat
  G : Nat
  B : Nat
  A : Nat
  deriving DecidableEq

/-- The colour `rl.Purple`. -/
def Purple : Color := ⟨200, 122, 255, 255⟩

/-- The colour `rl.SkyBlue`. -/
def SkyBlue : Color := ⟨102, 191, 255, 255⟩

/-- The colour `rl.Maroon`. -/
def Maroon : Color := ⟨190, 33, 55, 255⟩

/-- The run-time panics of the program. -/
inductive Panic where
  | makesliceLenOutOfRange
  | integerDivideByZero
  | sliceBoundsOutOfRange
  deriving DecidableEq

/-- What the program takes from package `math`, from raylib and from the
window. -/
structure Host where
  Pi : ℚ
  Sin : ℚ → ℚ
  Cos : ℚ → ℚ
  GetScreenWidth : Int
  GetScreenHeight : Int
  CheckCollisionCircleRec : Vector2 → Flt → Rectangle → Bool

/-- The struct `Player`. -/
structure Player where
  Pos : Vector2
  Sz : Vector2
  Spd : Vector2
  HP : Int
  deriving DecidableEq

/-- The struct `Projectile`. -/
structure Projectile where
  Pos : Vector2
  Sz : Vector2
  Spd : Vector2
  Damage : Int
  Harmless : Bool
  Color : Color
  deriving DecidableEq

/-- The struct `ProjectileType`. -/
structure ProjectileType where
  Name : String
  Reload : Int
  AtOnce : Int
  AngleOffsetIncrement : Flt
  CurrentAngleOffset : Flt
  deriving DecidableEq

/-- The struct `Behaviour`. -/
structure Behaviour where
  Frames : Int
  ProjectileTypes : List ProjectileType
  deriving DecidableEq

/-- The struct `Enemy`. -/
structure Enemy where
  Pos : Vector2
  Sz : Vector2
  Spd : Vector2
  Projectiles : List Projectile
  Behaviours : List Behaviour
  deriving DecidableEq

/-- The global `SCREEN_WIDTH`. -/
def SCREEN_WIDTH : Flt := Flt.fin 480

/-- The global `SCREEN_HEIGHT`. -/
def SCREEN_HEIGHT : Flt := Flt.fin 720

/-! ## `ProjectileType.CreateProjectiles` -/

/-- The `switch pt.Name` of `CreateProjectiles`: speed multiplier, size,
damage and colour of the archetype. -/
def archetype (name : String) : Flt × Vector2 × Int × Color :=
  if name = "small" then (Flt.fin 7, ⟨Flt.fin 10, Flt.fin 10⟩, 1, Purple)
  else if name = "big" then (Flt.fin 3, ⟨Flt.fin 30, Flt.fin 30⟩, 3, SkyBlue)
  else (Flt.fin 5, ⟨Flt.fin 20, Flt.fin 20⟩, 2, Maroon)

/-- The value `coneAngleRad` of `CreateProjectiles`. -/
def coneAngleRad (host : Host) (atOnce : Int) : Flt :=
  (if atOnce < 5 then Flt.fin 60 else Flt.fin 160) * Flt.fin (host.Pi / 180)

/-- The value `angle` of `CreateProjectiles` in iteration `i` of its loop. -/
def slotAngle (host : Host) (atOnce : Int) (i : Nat) : Flt :=
  -coneAngleRad host atOnce / Flt.fin 2
    + Flt.ofInt i * (coneAngleRad host atOnce / Flt.ofInt (int8 (atOnce - 1)))

/-- The projectile stored in slot `i` by the loop of `CreateProjectiles`. -/
def slotProjectile (host : Host) (pt : ProjectileType) (pos : Vector2) (i : Nat) :
    Projectile :=
  let a := archetype pt.Name
  let angle := slotAngle host pt.AtOnce i
  { Pos := pos
    Spd := ⟨Flt.lift host.Sin (angle + pt.CurrentAngleOffset) * a.1,
            Flt.lift host.Cos (angle + pt.CurrentAngleOffset) * a.1⟩
    Sz := a.2.1
    Damage := a.2.2.1
    Harmless := false
    Color := a.2.2.2 }

/-- The end of `CreateProjectiles`: the offset advances by the increment, a
`float32` sum, and the increment changes sign when the new offset is above
the `float32` constant 0.3. -/
def stepOffset (pt : ProjectileType) : ProjectileType :=
  let offset := Flt.add32 pt.CurrentAngleOffset pt.AngleOffsetIncrement
  { pt with
    CurrentAngleOffset := offset
    AngleOffsetIncrement :=
      if Flt.gt offset (Flt.round32 (3 / 10)) then -pt.AngleOffsetIncrement
      else pt.AngleOffsetIncrement }

/-- The method `(*ProjectileType).CreateProjectiles`: the descriptor after
the call and the slice returned.  `make` panics on a negative length. -/
def CreateProjectiles (host : Host) (pt : ProjectileType) (pos : Vector2) :
    Except Panic (ProjectileType × List Projectile) :=
  if pt.AtOnce < 0 then .error .makesliceLenOutOfRange
  else
    .ok (stepOffset pt, (List.range pt.AtOnce.toNat).map (slotProjectile host pt pos))

/-! ## `Enemy.RunBehaviour` -/

/-- The first loop of `RunBehaviour`, from index `i` on: the value of `frame`
when the loop ends, and the index and value of the behaviour at which it
broke off. -/
def selectLoop : List Behaviour → Nat → Int → Int × Option (Nat × Behaviour)
  | [], _, frame => (frame, none)
  | value :: rest, i, frame =>
    let frame := int32 (frame - value.Frames)
    if frame < 0 then (frame, some (i, value)) else selectLoop rest (i + 1) frame

/-- The second loop of `RunBehaviour` over the projectile types still to
visit: the descriptors after the loop and the pool after the loop.  The
remainder panics on a zero `Reload`; it is Go's truncated remainder, which
for two `int32` operands is again an `int32`. -/
def fireLoop (host : Host) (origin : Vector2) (frame : Int) :
    List ProjectileType → List Projectile →
      Except Panic (List ProjectileType × List Projectile)
  | [], pool => .ok ([], pool)
  | projType :: rest, pool =>
    if projType.Reload = 0 then .error .integerDivideByZero
    else if Int.tmod frame projType.Reload = 0 then
      match CreateProjectiles host projType origin with
      | .error p => .error p
      | .ok (projType1, created) =>
        match fireLoop host origin frame rest (pool ++ created) with
        | .error p => .error p
        | .ok (rest1, pool1) => .ok (projType1 :: rest1, pool1)
    else
      match fireLoop host origin frame rest pool with
      | .error p => .error p
      | .ok (rest1, pool1) => .ok (projType :: rest1, pool1)

/-- The point `rl.NewVector2(e.Pos.X+e.Sz.X/2, e.Pos.Y+e.Sz.Y/2)`. -/
def Enemy.centre (e : Enemy) : Vector2 :=
  ⟨e.Pos.X + e.Sz.X / Flt.fin 2, e.Pos.Y + e.Sz.Y / Flt.fin 2⟩

/-- The method `(*Enemy).RunBehaviour`.  The slice `bte.ProjectileTypes`
shares its array with the selected element of `e.Behaviours`, so the
descriptors changed by the second loop are written back there; without a
selected behaviour `bte` is the zero value and the second loop has nothing to
visit. -/
def RunBehaviour (host : Host) (e : Enemy) (frame : Int) : Except Panic Enemy :=
  match selectLoop e.Behaviours 0 frame with
  | (_, none) => .ok e
  | (frame, some (i, bte)) =>
    match fireLoop host e.centre frame bte.ProjectileTypes e.Projectiles with
    | .error p => .error p
    | .ok (types, pool) =>
      .ok { e with
            Projectiles := pool
            Behaviours := e.Behaviours.set i { bte with ProjectileTypes := types } }

/-! ## `Player.Move` -/

/-- The method `(*Player).Move`; its sums and differences are `float32`
operations. -/
def Player.Move (p : Player) (x y : Flt) : Player :=
  let nextPosx := Flt.add32 p.Pos.X x
  let p : Player :=
    if Flt.lt nextPosx (Flt.fin 0) then { p with Pos := { p.Pos with X := Flt.fin 0 } }
    else if Flt.gt (Flt.add32 nextPosx p.Sz.X) SCREEN_WIDTH then
      { p with Pos := { p.Pos with X := Flt.sub32 SCREEN_WIDTH p.Sz.X } }
    else { p with Pos := { p.Pos with X := nextPosx } }
  let nextPosY := Flt.add32 p.Pos.Y y
  if Flt.lt nextPosY (Flt.fin 0) then { p with Pos := { p.Pos with Y := Flt.fin 0 } }
  else if Flt.gt (Flt.add32 nextPosY p.Sz.Y) SCREEN_HEIGHT then
    { p with Pos := { p.Pos with Y := Flt.sub32 SCREEN_HEIGHT p.Sz.Y } }
  else { p with Pos := { p.Pos with Y := nextPosY } }

/-! ## `Enemy.UpdateProjectilesPos` -/

/-- The function `CheckOutOfBounds`. -/
def CheckOutOfBounds (host : Host) (pos : Vector2) : Bool :=
  Flt.lt pos.X (Flt.fin 0) || Flt.gt pos.X (Flt.ofInt host.GetScreenWidth)
    || Flt.lt pos.Y (Flt.fin 0) || Flt.gt pos.Y (Flt.ofInt host.GetScreenHeight)

/-- The body of the first loop of `UpdateProjectilesPos`. -/
def integrate (proj : Projectile) : Projectile :=
  { proj with Pos := ⟨proj.Spd.X + proj.Pos.X, proj.Spd.Y + proj.Pos.Y⟩ }

/-- The zero value of `Projectile`. -/
def Projectile.zero : Projectile :=
  ⟨⟨Flt.fin 0, Flt.fin 0⟩, ⟨Flt.fin 0, Flt.fin 0⟩, ⟨Flt.fin 0, Flt.fin 0⟩, 0, false,
    ⟨0, 0, 0, 0⟩⟩

/-- The array under `e.Projectiles` after
`append(e.Projectiles[:i], e.Projectiles[i+1:]...)`, for a slice of length
`len` with `i < len`: the elements after index `i` move one place down, and
the place `len - 1` and those above keep what they held. -/
def removeAt (arr : List Projectile) (len i : Nat) : List Projectile :=
  arr.take i ++ (arr.drop (i + 1)).take (len - (i + 1)) ++ arr.drop (len - 1)

/-- The second loop of `UpdateProjectilesPos` over the indices still to
visit.  The `range` clause has fixed the slice it walks (and so its length)
before the first iteration, and reads element `i` of the shared array `arr`;
`len` is the current length of `e.Projectiles`.  The slice expression
`e.Projectiles[i+1:]` panics when `i + 1` is above that length. -/
def pruneLoop (host : Host) :
    List Nat → List Projectile → Nat → Except Panic (List Projectile × Nat)
  | [], arr, len => .ok (arr, len)
  | i :: rest, arr, len =>
    let proj := arr.getD i Projectile.zero
    if CheckOutOfBounds host proj.Pos then
      if len < i + 1 then .error .sliceBoundsOutOfRange
      else pruneLoop host rest (removeAt arr len i) (len - 1)
    else pruneLoop host rest arr len

/-- The method `(*Enemy).UpdateProjectilesPos`. -/
def UpdateProjectilesPos (host : Host) (e : Enemy) : Except Panic Enemy :=
  let moved := e.Projectiles.map integrate
  match pruneLoop host (List.range moved.length) moved moved.length with
  | .error p => .error p
  | .ok (arr, len) => .ok { e with Projectiles := arr.take len }

/-! ## `Game.CheckCollisions` -/

/-- The struct `Game`. -/
structure Game where
  ScreenWidth : Int
  ScreenHeight : Int
  Frames : Int
  GameOver : Bool
  Pause : Bool
  Player : Player
  Enemy : Enemy
  deriving DecidableEq

/-- The loop of `CheckCollisions` over the projectiles still to visit: those
projectiles after the loop, and the hit points after the loop. -/
def collideLoop (host : Host) (playerRect : Rectangle) :
    List Projectile → Int → List Projectile × Int
  | [], hp => ([], hp)
  | proj :: rest, hp =>
    if !proj.Harmless && host.CheckCollisionCircleRec proj.Pos proj.Sz.X playerRect then
      let r := collideLoop host playerRect rest (int8 (hp - proj.Damage))
      ({ proj with Harmless := true } :: r.1, r.2)
    else
      let r := collideLoop host playerRect rest hp
      (proj :: r.1, r.2)

/-- The rectangle `playerRect` of `CheckCollisions`. -/
def Game.playerRect (g : Game) : Rectangle :=
  ⟨g.Player.Pos.X, g.Player.Pos.Y, g.Player.Sz.X, g.Player.Sz.Y⟩

/-- The method `(*Game).CheckCollisions`. -/
def CheckCollisions (host : Host) (g : Game) : Game :=
  let r := collideLoop host g.playerRect g.Enemy.Projectiles g.Player.HP
  { g with
    Player := { g.Player with HP := r.2 }
    Enemy := { g.Enemy with Projectiles := r.1 } }

/-! ## Vocabulary of the properties -/

/-- The sum `d0 + ... + d(k-1)` of the durations of the first `k`
behaviours. -/
def durationSum (bs : List Behaviour) (k : Nat) : Int :=
  ((bs.take k).map Behaviour.Frames).sum

/-- No subtraction executed by the first loop of `RunBehaviour` on frame
`frame` leaves the range of `int32`. -/
def selectInRange : List Behaviour → Int → Prop
  | [], _ => True
  | value :: rest, frame =>
    isInt32 (frame - value.Frames)
      ∧ (0 ≤ frame - value.Frames → selectInRange rest (frame - value.Frames))

/-- The volley of a projectile type fired from `origin`: one projectile for
each of the slots `0, ..., AtOnce - 1`. -/
def volley (host : Host) (origin : Vector2) (pt : ProjectileType) : List Projectile :=
  (List.range pt.AtOnce.toNat).map (slotProjectile host pt origin)

/-- The volleys, in list order, of those projectile types whose reload
divides `r`. -/
def volleys (host : Host) (origin : Vector2) (r : Int) (types : List ProjectileType) :
    List Projectile :=
  ((types.filter (fun pt => decide (pt.Reload ∣ r))).map (volley host origin)).flatten

/-- A host for the scenarios: 355/113 for pi, the first terms of the power
series for sine and cosine, a window of 480 by 720, and a circle that meets
a rectangle when its centre is within the radius of the rectangle on both
axes. -/
def scenarioHost : Host where
  Pi := 355 / 113
  Sin := fun q => q - q ^ 3 / 6
  Cos := fun q => 1 - q ^ 2 / 2
  GetScreenWidth := 480
  GetScreenHeight := 720
  CheckCollisionCircleRec := fun c r rec =>
    !(Flt.lt (c.X + r) rec.X || Flt.gt (c.X - r) (rec.X + rec.Width)
      || Flt.lt (c.Y + r) rec.Y || Flt.gt (c.Y - r) (rec.Y + rec.Height))

/-- The projectile type of the first behaviour of `Game.Init`. -/
def scenarioType : ProjectileType :=
  { Name := "big", Reload := 60, AtOnce := 7,
    AngleOffsetIncrement := Flt.fin (8 / 100), CurrentAngleOffset := Flt.fin 0 }

/-- The enemy of `Game.Init` with the single behaviour
`{duration 120, type big, reload 60, atOnce 7}` and an empty pool. -/
def scenarioEnemy : Enemy :=
  { Pos := ⟨Flt.fin 230, Flt.fin 20⟩
    Sz := ⟨Flt.fin 20, Flt.fin 20⟩
    Spd := ⟨Flt.fin 10, Flt.fin 10⟩
    Projectiles := []
    Behaviours := [{ Frames := 120, ProjectileTypes := [scenarioType] }] }

/-- The projectile type of the scenario with a count of -1 and a reload
of 1. -/
def negativeCountType : ProjectileType :=
  { scenarioType with Reload := 1, AtOnce := -1 }

/-- The enemy of the scenario with `negativeCountType` for its projectile
type. -/
def negativeCountEnemy : Enemy :=
  { scenarioEnemy with
    Behaviours := [{ Frames := 120, ProjectileTypes := [negativeCountType] }] }

/-- Three projectiles at the origin of an empty pool: the first two leave
the arena through its left edge on the next step, the third stays inside. -/
def skipPool : List Projectile :=
  [ { Projectile.zero with Spd := ⟨Flt.fin (-1), Flt.fin 0⟩ },
    { Projectile.zero with Spd := ⟨Flt.fin (-2), Flt.fin 0⟩ },
    { Projectile.zero with Spd := ⟨Flt.fin 1, Flt.fin 1⟩ } ]

/-- The cone width in radians as the specification words it: 60 degrees for
fewer than five projectiles and 160 degrees otherwise. -/
def coneWidth (host : Host) (n : Int) : ℚ :=
  (if n < 5 then 60 else 160) * (host.Pi / 180)

/-- The angle of slot `i` of `n` as the specification words it:
`-C/2 + i * C/(n-1)` for the cone width `C`. -/
def spreadAngle (host : Host) (n : Int) (i : Nat) : ℚ :=
  -(coneWidth host n) / 2 + i * (coneWidth host n / (n - 1))

/-- Clamp of `v` to the interval from `lo` to `hi`. -/
def clamp (lo hi v : ℚ) : ℚ := max lo (min v hi)

/-- A projectile hits: it is not harmless and `CheckCollisionCircleRec`
reports its circle of radius `Sz.X` against the player rectangle. -/
def hits (host : Host) (playerRect : Rectangle) (proj : Projectile) : Bool :=
  !proj.Harmless && host.CheckCollisionCircleRec proj.Pos proj.Sz.X playerRect

/-- The sum of the damage of the projectiles of a pool that hit. -/
def totalDamage (host : Host) (playerRect : Rectangle) (pool : List Projectile) : Int :=
  ((pool.filter (hits host playerRect)).map Projectile.Damage).sum

/-- A projectile after `CheckCollisions`: harmless if it hit, and as it was
otherwise. -/
def markHit (host : Host) (playerRect : Rectangle) (proj : Projectile) : Projectile :=
  if hits host playerRect proj then { proj with Harmless := true } else proj

/-- A big projectile that is not harmless and lies over the player of
`Game.Init`. -/
def scenarioProjectile : Projectile :=
  { Pos := ⟨Flt.fin 240, Flt.fin 670⟩
    Sz := ⟨Flt.fin 30, Flt.fin 30⟩
    Spd := ⟨Flt.fin 0, Flt.fin 3⟩
    Damage := 3
    Harmless := false
    Color := SkyBlue }

/-- The game of `Game.Init` with `scenarioProjectile` for its pool. -/
def scenarioGame : Game :=
  { ScreenWidth := 480
    ScreenHeight := 720
    Frames := 0
    GameOver := false
    Pause := false
    Player := ⟨⟨Flt.fin 230, Flt.fin 660⟩, ⟨Flt.fin 20, Flt.fin 20⟩, ⟨Flt.fin 5, Flt.fin 5⟩, 10⟩
    Enemy := { scenarioEnemy with Projectiles := [scenarioProjectile] } }

/-! ## `Game.CheckGameOver` and `Game.Update` -/

/-- What raylib reports about the keyboard during one call of `Update`:
`rl.IsKeyPressed(rl.KeyP)` and `rl.IsKeyDown` of the four movement keys. -/
structure Keys where
  KeyP : Bool
  KeyD : Bool
  KeyA : Bool
  KeyS : Bool
  KeyW : Bool
  deriving DecidableEq

/-- The method `(*Game).CheckGameOver`. -/
def CheckGameOver (g : Game) : Game :=
  if g.Player.HP ≤ 0 then { g with GameOver := true } else g

/-- The four `rl.IsKeyDown` statements of `Update`. -/
def movePlayer (keys : Keys) (p : Player) : Player :=
  let p := if keys.KeyD then p.Move p.Spd.X (Flt.fin 0) else p
  let p := if keys.KeyA then p.Move (-p.Spd.X) (Flt.fin 0) else p
  let p := if keys.KeyS then p.Move (Flt.fin 0) p.Spd.Y else p
  if keys.KeyW then p.Move (Flt.fin 0) (-p.Spd.Y) else p

/-- The method `(*Game).Update`. -/
def Update (host : Host) (keys : Keys) (g : Game) : Except Panic Game :=
  let g := if keys.KeyP then { g with Pause := !g.Pause } else g
  if g.GameOver || g.Pause then .ok g
  else
    let g := { g with Player := movePlayer keys g.Player }
    match RunBehaviour host g.Enemy g.Frames with
    | .error p => .error p
    | .ok e1 =>
      match UpdateProjectilesPos host e1 with
      | .error p => .error p
      | .ok e2 =>
        let g := CheckGameOver (CheckCollisions host { g with Enemy := e2 })
        .ok { g with Frames := int32 (g.Frames + 1) }

/-- The calls of `Update` made by the loop of `main`, one for each element
of the list of keyboard states. -/
def updates (host : Host) : List Keys → Game → Except Panic Game
  | [], g => .ok g
  | keys :: rest, g =>
    match Update host keys g with
    | .error p => .error p
    | .ok g1 => updates host rest g1

/-! ## raylib -/

/-- C's `a <= b`; false whenever an operand is not-a-number. -/
def Flt.le : Flt → Flt → Bool
  | .fin a, .fin b => decide (a ≤ b)
  | .nan, _ => false
  | _, .nan => false
  | .ninf, _ => true
  | _, .pinf => true
  | .pinf, _ => false
  | .fin _, .ninf => false

/-- C's `fabsf`. -/
def Flt.abs : Flt → Flt
  | .fin q => .fin |q|
  | .pinf => .pinf
  | .ninf => .pinf
  | .nan => .nan

/-- The function `CheckCollisionCircleRec` of raylib (`rshapes.c`), which
`rl.CheckCollisionCircleRec` calls: the circle meets the rectangle when its
centre is no further from the rectangle than the radius. -/
def rlCheckCollisionCircleRec (center : Vector2) (radius : Flt) (r : Rectangle) : Bool :=
  let recCenterX := r.X + r.Width / Flt.fin 2
  let recCenterY := r.Y + r.Height / Flt.fin 2
  let dx := Flt.abs (center.X - recCenterX)
  let dy := Flt.abs (center.Y - recCenterY)
  if Flt.gt dx (r.Width / Flt.fin 2 + radius) then false
  else if Flt.gt dy (r.Height / Flt.fin 2 + radius) then false
  else if Flt.le dx (r.Width / Flt.fin 2) then true
  else if Flt.le dy (r.Height / Flt.fin 2) then true
  else
    Flt.le
      ((dx - r.Width / Flt.fin 2) * (dx - r.Width / Flt.fin 2)
        + (dy - r.Height / Flt.fin 2) * (dy - r.Height / Flt.fin 2))
      (radius * radius)

/-- The host of the scenarios with raylib's collision test. -/
def raylibHost : Host :=
  { scenarioHost with CheckCollisionCircleRec := rlCheckCollisionCircleRec }

/-! ## Scenarios of the second part -/

/-- No key pressed and none held. -/
def noKeys : Keys := ⟨false, false, false, false, false⟩

/-- A big projectile at `(240, y)` falling by 10 a frame. -/
def fallingBig (y : ℚ) (harmless : Bool) : Projectile :=
  { Pos := ⟨Flt.fin 240, Flt.fin y⟩
    Sz := ⟨Flt.fin 30, Flt.fin 30⟩
    Spd := ⟨Flt.fin 0, Flt.fin 10⟩
    Damage := 3
    Harmless := harmless
    Color := SkyBlue }

/-- The game of the four hits after `k` frames: the player of `Game.Init`,
an enemy without behaviours, and four big projectiles above the player, 10
apart, of which one more reaches the player with every frame. -/
def fourHits (k : Nat) : Game :=
  { ScreenWidth := 480
    ScreenHeight := 720
    Frames := k
    GameOver := decide (4 ≤ k)
    Pause := false
    Player :=
      ⟨⟨Flt.fin 230, Flt.fin 660⟩, ⟨Flt.fin 20, Flt.fin 20⟩, ⟨Flt.fin 5, Flt.fin 5⟩,
        10 - 3 * (k : Int)⟩
    Enemy :=
      { scenarioEnemy with
        Behaviours := []
        Projectiles :=
          [ fallingBig (620 + 10 * k) (decide (1 ≤ k)),
            fallingBig (610 + 10 * k) (decide (2 ≤ k)),
            fallingBig (600 + 10 * k) (decide (3 ≤ k)),
            fallingBig (590 + 10 * k) (decide (4 ≤ k)) ] } }

/-- The game of the scenario with 47 copies of `scenarioProjectile` in its
pool. -/
def crowdedGame : Game :=
  { scenarioGame with
    Enemy := { scenarioEnemy with Projectiles := List.replicate 47 scenarioProjectile } }

/-- Two projectiles that leave the arena on the next step. -/
def panicPool : List Projectile :=
  [ { Projectile.zero with Spd := ⟨Flt.fin (-1), Flt.fin 0⟩ },
    { Projectile.zero with Spd := ⟨Flt.fin (-2), Flt.fin 0⟩ } ]

/-- The game of the scenario, over, with an empty pool. -/
def overGame : Game :=
  { scenarioGame with GameOver := true, Enemy := scenarioEnemy }

/-- The game of the scenario with an empty pool and the frame counter at
the largest `int32`. -/
def lastFrameGame : Game :=
  { scenarioGame with Frames := 2147483647, Enemy := scenarioEnemy }

/-- The enemy of the scenario after its call of `RunBehaviour` on frame 0:
the first volley is in the pool and the descriptor has been stepped. -/
def scenarioEnemyFired : Enemy :=
  { scenarioEnemy with
    Projectiles := volley raylibHost scenarioEnemy.centre scenarioType
    Behaviours := [{ Frames := 120, ProjectileTypes := [stepOffset scenarioType] }] }

/-- The game of the scenario with one big projectile in its pool, at
`(240, y)`, straight above the player, whose box begins at `y = 660`. -/
def nearGame (y : ℚ) : Game :=
  { scenarioGame with Enemy := { scenarioEnemy with Projectiles := [fallingBig y false] } }

/-- The descriptor of the third behaviour of `Game.Init` before its third
volley: the increment is the `float32` 0.1 and the offset, after two
volleys, the `float32` 0.2. -/
def thirdVolleyType : ProjectileType :=
  { Name := "", Reload := 25, AtOnce := 7,
    AngleOffsetIncrement := Flt.fin (13421773 / 134217728),
    CurrentAngleOffset := Flt.fin (13421773 / 67108864) }

/-- A player at the left edge of the screen whose width is the `float32`
`480 - 41/4096`. -/
def widePlayer : Player :=
  ⟨⟨Flt.fin 0, Flt.fin 660⟩, ⟨Flt.fin (1966039 / 4096), Flt.fin 20⟩,
    ⟨Flt.fin 5, Flt.fin 5⟩, 10⟩

/-! ## Floating-point values: lemmas -/

@[simp] theorem Flt.fin_add_fin (a b : ℚ) : Flt.fin a + Flt.fin b = Flt.fin (a + b) := rfl

@[simp] theorem Flt.neg_fin (a : ℚ) : -Flt.fin a = Flt.fin (-a) := rfl

@[simp] theorem Flt.fin_sub_fin (a b : ℚ) : Flt.fin a - Flt.fin b = Flt.fin (a - b) := by
  show Flt.add (Flt.fin a) (Flt.neg (Flt.fin b)) = _
  simp [Flt.add, Flt.neg, sub_eq_add_neg]

@[simp] theorem Flt.fin_mul_fin (a b : ℚ) : Flt.fin a * Flt.fin b = Flt.fin (a * b) := rfl

theorem Flt.fin_div_fin (a b : ℚ) (h : b ≠ 0) : Flt.fin a / Flt.fin b = Flt.fin (a / b) := by
  show Flt.div (Flt.fin a) (Flt.fin b) = _
  simp [Flt.div, h]

@[simp] theorem Flt.lt_fin_fin (a b : ℚ) : Flt.lt (Flt.fin a) (Flt.fin b) = decide (a < b) :=
  rfl

@[simp] theorem Flt.gt_fin_fin (a b : ℚ) : Flt.gt (Flt.fin a) (Flt.fin b) = decide (b < a) :=
  rfl

@[simp] theorem Flt.ofInt_eq (n : Int) : Flt.ofInt n = Flt.fin (n : ℚ) := rfl

@[simp] theorem Flt.lift_fin (f : ℚ → ℚ) (a : ℚ) : Flt.lift f (Flt.fin a) = Flt.fin (f a) :=
  rfl

@[simp] theorem Flt.lift_nan (f : ℚ → ℚ) : Flt.lift f Flt.nan = Flt.nan := rfl

@[simp] theorem Flt.add_nan (a : Flt) : a + Flt.nan = Flt.nan := by
  cases a <;> rfl

@[simp] theorem Flt.nan_add (a : Flt) : Flt.nan + a = Flt.nan := by
  cases a <;> rfl

@[simp] theorem Flt.nan_mul (a : Flt) : Flt.nan * a = Flt.nan := by
  cases a <;> rfl

@[simp] theorem Flt.mul_nan (a : Flt) : a * Flt.nan = Flt.nan := by
  cases a <;> rfl

/-! ## Machine numbers: lemmas -/

theorem int32_eq_self {x : Int} (h : isInt32 x) : int32 x = x := by
  unfold isInt32 at h
  unfold int32
  omega

theorem int8_eq_self {x : Int} (h : isInt8 x) : int8 x = x := by
  unfold isInt8 at h
  unfold int8
  omega

/-! ## The scheduler -/

@[simp] theorem durationSum_zero (bs : List Behaviour) : durationSum bs 0 = 0 := by
  simp [durationSum]

@[simp] theorem durationSum_nil (k : Nat) : durationSum [] k = 0 := by
  simp [durationSum]

@[simp] theorem durationSum_cons_succ (b : Behaviour) (bs : List Behaviour) (k : Nat) :
    durationSum (b :: bs) (k + 1) = b.Frames + durationSum bs k := by
  simp [durationSum]

/-- The first loop of `RunBehaviour` started at index `k`: it breaks off at
the first behaviour whose cumulative duration exceeds the frame. -/
theorem selectLoop_some (bs : List Behaviour) :
    ∀ (k : Nat) (f : Int), selectInRange bs f →
      ∀ (i : Nat) (hi : i < bs.length), f < durationSum bs (i + 1) →
        (∀ j, j < i → durationSum bs (j + 1) ≤ f) →
        selectLoop bs k f = (f - durationSum bs (i + 1), some (k + i, bs[i])) := by
  induction bs with
  | nil => intro k f _ i hi; simp at hi
  | cons b rest ih =>
    intro k f hr i hi hlt hle
    obtain ⟨hb, hrest⟩ := hr
    cases i with
    | zero =>
      have h0 : f - b.Frames < 0 := by simpa using hlt
      simp [selectLoop, int32_eq_self hb, h0]
    | succ i =>
      have h0 : 0 ≤ f - b.Frames := by
        have := hle 0 (Nat.succ_pos i)
        simp at this
        omega
      have hi1 : i < rest.length := by simpa using hi
      have hlt1 : f - b.Frames < durationSum rest (i + 1) := by
        simp at hlt
        omega
      have hle1 : ∀ j, j < i → durationSum rest (j + 1) ≤ f - b.Frames := by
        intro j hj
        have := hle (j + 1) (Nat.succ_lt_succ hj)
        simp at this
        omega
      have := ih (k + 1) (f - b.Frames) (hrest h0) i hi1 hlt1 hle1
      simp only [selectLoop, int32_eq_self hb, not_lt.mpr h0, if_false, this,
        durationSum_cons_succ, List.getElem_cons_succ]
      have hk : k + 1 + i = k + (i + 1) := by omega
      rw [hk]
      congr 1
      omega

/-- The first loop of `RunBehaviour` started at index `k`: it runs to the end
when no cumulative duration exceeds the frame. -/
theorem selectLoop_none (bs : List Behaviour) :
    ∀ (k : Nat) (f : Int), selectInRange bs f →
      (∀ i, i < bs.length → durationSum bs (i + 1) ≤ f) →
      selectLoop bs k f = (f - durationSum bs bs.length, none) := by
  induction bs with
  | nil => intro k f _ _; simp [selectLoop]
  | cons b rest ih =>
    intro k f hr hle
    obtain ⟨hb, hrest⟩ := hr
    have h0 : 0 ≤ f - b.Frames := by
      have := hle 0 (by simp)
      simp at this
      omega
    have hle1 : ∀ i, i < rest.length → durationSum rest (i + 1) ≤ f - b.Frames := by
      intro j hj
      have := hle (j + 1) (by simpa using hj)
      simp at this
      omega
    have := ih (k + 1) (f - b.Frames) (hrest h0) hle1
    simp only [selectLoop, int32_eq_self hb, not_lt.mpr h0, if_false, this,
      List.length_cons, durationSum_cons_succ]
    congr 1
    omega

/-- C1: when no subtraction of the loop leaves `int32`, the behaviour whose
projectile types `RunBehaviour` considers on frame `f` is the one at the
first index `i` with `d0 + ... + di > f`: the first loop breaks off there with
the frame value `f - (d0 + ... + di)`, and the second loop runs over the
projectile types of that behaviour and of no other.  When there is no such
index no behaviour is selected, and the call returns the enemy as it was,
having considered no projectile type. -/
theorem runBehaviour_selection (host : Host) (e : Enemy) (f : Int)
    (h : selectInRange e.Behaviours f) :
    (∀ (i : Nat) (hi : i < e.Behaviours.length),
        f < durationSum e.Behaviours (i + 1) →
        (∀ j, j < i → durationSum e.Behaviours (j + 1) ≤ f) →
        selectLoop e.Behaviours 0 f
            = (f - durationSum e.Behaviours (i + 1), some (i, e.Behaviours[i]))
        ∧ RunBehaviour host e f
            = match fireLoop host e.centre (f - durationSum e.Behaviours (i + 1))
                e.Behaviours[i].ProjectileTypes e.Projectiles with
              | .error p => .error p
              | .ok (types, pool) =>
                .ok { e with
                      Projectiles := pool
                      Behaviours :=
                        e.Behaviours.set i { e.Behaviours[i] with ProjectileTypes := types } })
    ∧ ((∀ i, i < e.Behaviours.length → durationSum e.Behaviours (i + 1) ≤ f) →
        (selectLoop e.Behaviours 0 f).2 = none ∧ RunBehaviour host e f = .ok e) := by
  refine ⟨fun i hi hlt hle => ?_, fun hle => ?_⟩
  · have hs := selectLoop_some e.Behaviours 0 f h i hi hlt hle
    simp only [Nat.zero_add] at hs
    refine ⟨hs, ?_⟩
    simp only [RunBehaviour, hs]
  · have := selectLoop_none e.Behaviours 0 f h hle
    simp [RunBehaviour, this]

theorem runBehaviour_selection_witness :
    selectInRange scenarioEnemy.Behaviours 60
    ∧ (∀ (i : Nat) (hi : i < scenarioEnemy.Behaviours.length),
        60 < durationSum scenarioEnemy.Behaviours (i + 1) →
        (∀ j, j < i → durationSum scenarioEnemy.Behaviours (j + 1) ≤ 60) →
        selectLoop scenarioEnemy.Behaviours 0 60
          = (60 - durationSum scenarioEnemy.Behaviours (i + 1),
              some (i, scenarioEnemy.Behaviours[i])))
    ∧ selectLoop scenarioEnemy.Behaviours 0 60
        = (-60, some (0, ⟨120, [scenarioType]⟩))
    ∧ selectLoop scenarioEnemy.Behaviours 0 120 = (0, none) := by
  have hr : selectInRange scenarioEnemy.Behaviours 60 := by
    simp [selectInRange, scenarioEnemy, isInt32]
  refine ⟨hr, fun i hi hlt hle =>
    ((runBehaviour_selection scenarioHost scenarioEnemy 60 hr).1 i hi hlt hle).1, ?_, ?_⟩
  · simp [selectLoop, scenarioEnemy, int32]
  · simp [selectLoop, scenarioEnemy, int32]

/-! ## Firing -/

theorem createProjectiles_ok (host : Host) (pt : ProjectileType) (pos : Vector2)
    (h : 0 ≤ pt.AtOnce) :
    CreateProjectiles host pt pos = .ok (stepOffset pt, volley host pos pt) := by
  simp [CreateProjectiles, volley, not_lt.mpr h]

theorem createProjectiles_panic (host : Host) (pt : ProjectileType) (pos : Vector2)
    (h : pt.AtOnce < 0) :
    CreateProjectiles host pt pos = .error .makesliceLenOutOfRange := by
  simp [CreateProjectiles, h]

theorem volleys_nil (host : Host) (origin : Vector2) (r : Int) :
    volleys host origin r [] = [] := by
  simp [volleys]

theorem volleys_cons (host : Host) (origin : Vector2) (r : Int) (pt : ProjectileType)
    (rest : List ProjectileType) :
    volleys host origin r (pt :: rest)
      = (if pt.Reload ∣ r then volley host origin pt else [])
          ++ volleys host origin r rest := by
  by_cases h : pt.Reload ∣ r <;> simp [volleys, List.filter_cons, h]

theorem volley_length (host : Host) (origin : Vector2) (pt : ProjectileType) :
    (volley host origin pt).length = pt.AtOnce.toNat := by
  simp [volley]

/-- The second loop of `RunBehaviour` on descriptors with a non-zero reload
and a non-negative count: every type whose reload divides the frame value has
its offset stepped and its volley appended to the pool. -/
theorem fireLoop_ok (host : Host) (origin : Vector2) (r : Int)
    (types : List ProjectileType) :
    ∀ (pool : List Projectile),
      (∀ pt, pt ∈ types → pt.Reload ≠ 0 ∧ 0 ≤ pt.AtOnce) →
      fireLoop host origin r types pool
        = .ok (types.map (fun pt => if pt.Reload ∣ r then stepOffset pt else pt),
            pool ++ volleys host origin r types) := by
  induction types with
  | nil => intro pool _; simp [fireLoop, volleys_nil]
  | cons pt rest ih =>
    intro pool hall
    have hpt := hall pt (List.mem_cons_self _ _)
    have hrest : ∀ q, q ∈ rest → q.Reload ≠ 0 ∧ 0 ≤ q.AtOnce :=
      fun q hq => hall q (List.mem_cons_of_mem _ hq)
    by_cases hd : pt.Reload ∣ r
    · have ht : Int.tmod r pt.Reload = 0 := Int.tmod_eq_zero_of_dvd hd
      simp [fireLoop, hpt.1, ht, createProjectiles_ok host pt origin hpt.2, ih _ hrest,
        volleys_cons, hd, List.append_assoc]
    · have ht : ¬ Int.tmod r pt.Reload = 0 := fun h0 => hd (Int.dvd_of_tmod_eq_zero h0)
      simp [fireLoop, hpt.1, ht, ih _ hrest, volleys_cons, hd]

/-- C2, as amended: on a frame `f` whose selected behaviour is `i`, all of
whose projectile types have a non-zero reload and a non-negative count,
`RunBehaviour` returns, and the pool after the call is the pool before the
call followed by the volleys, in list order, of exactly those types whose
reload divides `f - (d0 + ... + di)`; each volley has `AtOnce`
projectiles. -/
theorem runBehaviour_fires (host : Host) (e : Enemy) (f : Int) (i : Nat)
    (hi : i < e.Behaviours.length)
    (hr : selectInRange e.Behaviours f)
    (hlt : f < durationSum e.Behaviours (i + 1))
    (hle : ∀ j, j < i → durationSum e.Behaviours (j + 1) ≤ f)
    (hty : ∀ pt, pt ∈ e.Behaviours[i].ProjectileTypes → pt.Reload ≠ 0 ∧ 0 ≤ pt.AtOnce) :
    (∃ e1, RunBehaviour host e f = .ok e1
      ∧ e1.Projectiles
          = e.Projectiles
            ++ volleys host e.centre (f - durationSum e.Behaviours (i + 1))
                e.Behaviours[i].ProjectileTypes)
    ∧ ∀ pt, pt ∈ e.Behaviours[i].ProjectileTypes →
        (volley host e.centre pt).length = pt.AtOnce.toNat := by
  refine ⟨?_, fun pt _ => volley_length host e.centre pt⟩
  have hs := selectLoop_some e.Behaviours 0 f hr i hi hlt hle
  simp only [Nat.zero_add] at hs
  simp [RunBehaviour, hs, fireLoop_ok host e.centre _ _ e.Projectiles hty]

theorem scenario_hyps (f : Int) (h0 : 0 ≤ f) (h1 : f < 120) :
    selectInRange scenarioEnemy.Behaviours f
    ∧ f < durationSum scenarioEnemy.Behaviours (0 + 1)
    ∧ (∀ j, j < 0 → durationSum scenarioEnemy.Behaviours (j + 1) ≤ f)
    ∧ (∀ pt, pt ∈ [scenarioType] → pt.Reload ≠ 0 ∧ 0 ≤ pt.AtOnce) := by
  refine ⟨?_, ?_, ?_, ?_⟩
  · simp only [selectInRange, scenarioEnemy, isInt32]
    omega
  · simpa [scenarioEnemy, durationSum] using h1
  · intro j hj
    omega
  · simp [scenarioType]

theorem runBehaviour_fires_witness :
    (selectInRange scenarioEnemy.Behaviours 0
      ∧ (0 : Int) < durationSum scenarioEnemy.Behaviours (0 + 1)
      ∧ (∀ pt, pt ∈ [scenarioType] → pt.Reload ≠ 0 ∧ 0 ≤ pt.AtOnce))
    ∧ (∃ e1, RunBehaviour scenarioHost scenarioEnemy 0 = .ok e1
        ∧ e1.Projectiles = volley scenarioHost scenarioEnemy.centre scenarioType
        ∧ e1.Projectiles.length = 7)
    ∧ (∃ e1, RunBehaviour scenarioHost scenarioEnemy 60 = .ok e1
        ∧ e1.Projectiles = volley scenarioHost scenarioEnemy.centre scenarioType
        ∧ e1.Projectiles.length = 7)
    ∧ (∃ e1, RunBehaviour scenarioHost scenarioEnemy 30 = .ok e1
        ∧ e1.Projectiles = []) := by
  have hv : ∀ r : Int, volleys scenarioHost scenarioEnemy.centre r [scenarioType]
      = if (60 : Int) ∣ r then volley scenarioHost scenarioEnemy.centre scenarioType
        else [] := by
    intro r
    rw [volleys_cons, volleys_nil, List.append_nil]
    rfl
  have key : ∀ f : Int, 0 ≤ f → f < 120 →
      ∃ e1, RunBehaviour scenarioHost scenarioEnemy f = .ok e1
        ∧ e1.Projectiles
          = if (60 : Int) ∣ f - 120
            then volley scenarioHost scenarioEnemy.centre scenarioType else [] := by
    intro f h0 h1
    obtain ⟨ha, hb, hc, hd⟩ := scenario_hyps f h0 h1
    obtain ⟨e1, he, hp⟩ :=
      (runBehaviour_fires scenarioHost scenarioEnemy f 0 (by simp [scenarioEnemy])
        ha hb hc hd).1
    refine ⟨e1, he, ?_⟩
    rw [hp]
    have : durationSum scenarioEnemy.Behaviours (0 + 1) = 120 := by
      simp [scenarioEnemy, durationSum]
    rw [this]
    exact hv (f - 120)
  refine ⟨?_, ?_, ?_, ?_⟩
  · obtain ⟨ha, hb, _, hd⟩ := scenario_hyps 0 (by norm_num) (by norm_num)
    exact ⟨ha, hb, hd⟩
  · obtain ⟨e1, he, hp⟩ := key 0 (by norm_num) (by norm_num)
    refine ⟨e1, he, ?_, ?_⟩
    · rw [hp]; norm_num
    · rw [hp]; norm_num [volley_length, scenarioType]; rfl
  · obtain ⟨e1, he, hp⟩ := key 60 (by norm_num) (by norm_num)
    refine ⟨e1, he, ?_, ?_⟩
    · rw [hp]; norm_num
    · rw [hp]; norm_num [volley_length, scenarioType]; rfl
  · obtain ⟨e1, he, hp⟩ := key 30 (by norm_num) (by norm_num)
    refine ⟨e1, he, ?_⟩
    rw [hp]; norm_num

/-- C2, as stated, fails: on frame 0 the enemy `negativeCountEnemy` has its
behaviour 0 selected, the reload of its only projectile type is not zero and
divides the frame value, and the call does not return a pool: `make` panics
on the negative count. -/
theorem runBehaviour_fires_counterexample :
    selectLoop negativeCountEnemy.Behaviours 0 0
        = (-120, some (0, ⟨120, [negativeCountType]⟩))
    ∧ (∀ pt, pt ∈ [negativeCountType] → pt.Reload ≠ 0)
    ∧ RunBehaviour scenarioHost negativeCountEnemy 0
        = .error .makesliceLenOutOfRange := by
  refine ⟨?_, ?_, ?_⟩
  · simp [selectLoop, negativeCountEnemy, int32]
  · simp [negativeCountType]
  · simp [RunBehaviour, selectLoop, negativeCountEnemy, int32, fireLoop,
      CreateProjectiles, negativeCountType, scenarioType]

/-! ## The projectile pool -/

/-- C3 fails on the code: after `UpdateProjectilesPos` on the pool `skipPool`
in the arena of 480 by 720, the pool still holds the second projectile, whose
integrated position (-2, 0) is outside the arena: having removed the first
projectile, the loop goes on to the next index and never tests the
projectile that moved down into the place of the removed one. -/
theorem updateProjectilesPos_skips :
    UpdateProjectilesPos scenarioHost { scenarioEnemy with Projectiles := skipPool }
      = .ok { scenarioEnemy with
              Projectiles :=
                [ { Projectile.zero with
                    Pos := ⟨Flt.fin (-2), Flt.fin 0⟩, Spd := ⟨Flt.fin (-2), Flt.fin 0⟩ },
                  { Projectile.zero with
                    Pos := ⟨Flt.fin 1, Flt.fin 1⟩, Spd := ⟨Flt.fin 1, Flt.fin 1⟩ } ] }
    ∧ CheckOutOfBounds scenarioHost ⟨Flt.fin (-2), Flt.fin 0⟩ = true := by
  constructor
  · norm_num [UpdateProjectilesPos, skipPool, integrate, Projectile.zero, List.range,
      List.range.loop, pruneLoop, CheckOutOfBounds, scenarioHost, removeAt]
  · norm_num [CheckOutOfBounds, scenarioHost]

/-! ## The spawn geometry -/

theorem coneAngleRad_eq (host : Host) (n : Int) :
    coneAngleRad host n = Flt.fin (coneWidth host n) := by
  unfold coneAngleRad coneWidth
  split <;> simp

theorem slotAngle_eq (host : Host) (n : Int) (i : Nat) (h2 : 2 ≤ n) (h8 : n ≤ 127) :
    slotAngle host n i = Flt.fin (spreadAngle host n i) := by
  have hw : int8 (n - 1) = n - 1 := int8_eq_self (by unfold isInt8; omega)
  have hne : ((n - 1 : Int) : ℚ) ≠ 0 := by
    have : n - 1 ≠ 0 := by omega
    exact_mod_cast this
  unfold slotAngle spreadAngle
  rw [coneAngleRad_eq, hw]
  simp only [Flt.neg_fin, Flt.ofInt_eq]
  rw [Flt.fin_div_fin _ _ (by norm_num), Flt.fin_div_fin _ _ hne]
  simp

/-- C4: for a count `n` with `2 ≤ n` (and `n ≤ 127`, the range of `int8`)
`CreateProjectiles` returns exactly `n` projectiles; projectile `i` is at the
origin passed in, is not harmless, and has the velocity
`(sin (a_i + offset) * speed, cos (a_i + offset) * speed)` for the offset
before the call and `a_i = -C/2 + i * C/(n-1)`, where `C` is 60 degrees for
`n < 5` and 160 degrees otherwise, in radians.  The angles run from `-C/2` to
`C/2` in equal steps of `C/(n-1)` and `a_i + a_(n-1-i) = 0`. -/
theorem createProjectiles_cone (host : Host) (pt : ProjectileType) (pos : Vector2)
    (h2 : 2 ≤ pt.AtOnce) (h8 : pt.AtOnce ≤ 127) :
    (∃ ps, CreateProjectiles host pt pos = .ok (stepOffset pt, ps)
      ∧ (ps.length : Int) = pt.AtOnce
      ∧ ∀ (i : Nat) (hi : i < ps.length),
          ps[i] =
            { Pos := pos
              Spd :=
                ⟨Flt.lift host.Sin
                    (Flt.fin (spreadAngle host pt.AtOnce i) + pt.CurrentAngleOffset)
                  * (archetype pt.Name).1,
                 Flt.lift host.Cos
                    (Flt.fin (spreadAngle host pt.AtOnce i) + pt.CurrentAngleOffset)
                  * (archetype pt.Name).1⟩
              Sz := (archetype pt.Name).2.1
              Damage := (archetype pt.Name).2.2.1
              Harmless := false
              Color := (archetype pt.Name).2.2.2 })
    ∧ coneWidth host pt.AtOnce = (if pt.AtOnce < 5 then 60 else 160) * (host.Pi / 180)
    ∧ spreadAngle host pt.AtOnce 0 = -(coneWidth host pt.AtOnce / 2)
    ∧ spreadAngle host pt.AtOnce (pt.AtOnce.toNat - 1) = coneWidth host pt.AtOnce / 2
    ∧ (∀ i : Nat, spreadAngle host pt.AtOnce (i + 1) - spreadAngle host pt.AtOnce i
        = coneWidth host pt.AtOnce / (pt.AtOnce - 1))
    ∧ (∀ i : Nat, i < pt.AtOnce.toNat →
        spreadAngle host pt.AtOnce i + spreadAngle host pt.AtOnce (pt.AtOnce.toNat - 1 - i)
          = 0) := by
  have hn : ((pt.AtOnce.toNat : Int)) = pt.AtOnce := Int.toNat_of_nonneg (by omega)
  have hq : ((pt.AtOnce.toNat : ℕ) : ℚ) = (pt.AtOnce : ℚ) := by exact_mod_cast hn
  have hne : (pt.AtOnce : ℚ) - 1 ≠ 0 := by
    have : pt.AtOnce - 1 ≠ 0 := by omega
    exact_mod_cast this
  have h1 : 1 ≤ pt.AtOnce.toNat := by omega
  refine ⟨⟨volley host pos pt, createProjectiles_ok host pt pos (by omega), ?_, ?_⟩,
    rfl, ?_, ?_, ?_, ?_⟩
  · rw [volley_length]
    exact hn
  · intro i hi
    simp only [volley, List.getElem_map, List.getElem_range, slotProjectile,
      slotAngle_eq host pt.AtOnce i h2 h8]
  · unfold spreadAngle
    simp
    ring
  · unfold spreadAngle
    rw [Nat.cast_sub h1, hq]
    field_simp
    ring
  · intro i
    unfold spreadAngle
    push_cast
    ring
  · intro i hi
    have hi1 : i ≤ pt.AtOnce.toNat - 1 := by omega
    unfold spreadAngle
    rw [Nat.cast_sub hi1, Nat.cast_sub h1, hq]
    field_simp
    ring

theorem createProjectiles_cone_witness :
    ((2 : Int) ≤ scenarioType.AtOnce ∧ scenarioType.AtOnce ≤ 127)
    ∧ ∃ ps, CreateProjectiles scenarioHost scenarioType scenarioEnemy.centre
        = .ok (stepOffset scenarioType, ps)
      ∧ (ps.length : Int) = 7 :=
  ⟨by simp [scenarioType],
    (createProjectiles_cone scenarioHost scenarioType scenarioEnemy.centre
      (by simp [scenarioType]) (by simp [scenarioType])).1.imp
      fun _ h => ⟨h.1, h.2.1⟩⟩

theorem zero_mul_div_zero (c : ℚ) : Flt.fin 0 * (Flt.fin c / Flt.fin 0) = Flt.nan := by
  show Flt.mul (Flt.fin 0) (Flt.div (Flt.fin c) (Flt.fin 0)) = Flt.nan
  by_cases hc : c = 0
  · simp [Flt.div, Flt.mul, hc]
  · by_cases hneg : c < 0 <;> simp [Flt.div, Flt.mul, Flt.inf, Flt.mulInf, hc, hneg]

/-- C5 fails on the code: with a count of 1 the angular step is the cone
width over `float64(AtOnce - 1) = 0`, the angle of the only slot is zero
times that quotient, which is not a number, and the one projectile returned
has the velocity (NaN, NaN) instead of
`(sin offset * speed, cos offset * speed)`. -/
theorem createProjectiles_single (host : Host) (name : String) (reload : Int)
    (increment offset : Flt) (pos : Vector2) :
    Flt.ofInt (int8 (1 - 1)) = Flt.fin 0
    ∧ slotAngle host 1 0 = Flt.nan
    ∧ CreateProjectiles host ⟨name, reload, 1, increment, offset⟩ pos
      = .ok (stepOffset ⟨name, reload, 1, increment, offset⟩,
          [{ Pos := pos
             Spd := ⟨Flt.nan, Flt.nan⟩
             Sz := (archetype name).2.1
             Damage := (archetype name).2.2.1
             Harmless := false
             Color := (archetype name).2.2.2 }]) := by
  have hang : slotAngle host 1 0 = Flt.nan := by
    unfold slotAngle
    rw [coneAngleRad_eq]
    have h0 : Flt.ofInt (int8 (1 - 1)) = Flt.fin 0 := by simp [int8]
    have h1 : Flt.ofInt ((0 : Nat) : Int) = Flt.fin 0 := by simp
    rw [h0, h1, zero_mul_div_zero]
    simp
  refine ⟨by simp [int8], hang, ?_⟩
  rw [createProjectiles_ok _ _ _ (by simp)]
  simp [volley, List.range, List.range.loop, slotProjectile, hang]

/-! ## The offset of the cone -/

/-- C6, as amended: for a descriptor with a non-negative count one call of
`CreateProjectiles` returns, the offset after it is the `float32` sum of the
offset before and the increment, the increment has changed sign exactly when
the new offset is above the `float32` constant 0.3, and name, reload and
count are as before. -/
theorem createProjectiles_offset (host : Host) (pt : ProjectileType) (pos : Vector2)
    (h : 0 ≤ pt.AtOnce) :
    (∃ pt1 ps, CreateProjectiles host pt pos = .ok (pt1, ps)
      ∧ pt1.CurrentAngleOffset = Flt.add32 pt.CurrentAngleOffset pt.AngleOffsetIncrement
      ∧ pt1.AngleOffsetIncrement
          = (if Flt.gt (Flt.add32 pt.CurrentAngleOffset pt.AngleOffsetIncrement)
                (Flt.round32 (3 / 10))
              then -pt.AngleOffsetIncrement else pt.AngleOffsetIncrement)
      ∧ pt1.Name = pt.Name ∧ pt1.Reload = pt.Reload ∧ pt1.AtOnce = pt.AtOnce)
    ∧ (∀ o d : ℚ, Flt.add32 (Flt.fin o) (Flt.fin d) = Flt.round32 (o + d)) :=
  ⟨⟨stepOffset pt, volley host pos pt, createProjectiles_ok host pt pos h,
    rfl, rfl, rfl, rfl, rfl⟩, fun _ _ => rfl⟩

theorem createProjectiles_offset_witness :
    (0 : Int) ≤ thirdVolleyType.AtOnce
    ∧ (∃ pt1 ps,
        CreateProjectiles scenarioHost thirdVolleyType scenarioEnemy.centre = .ok (pt1, ps)
        ∧ pt1.CurrentAngleOffset
            = Flt.add32 thirdVolleyType.CurrentAngleOffset
                thirdVolleyType.AngleOffsetIncrement
        ∧ pt1.AngleOffsetIncrement
            = (if Flt.gt
                  (Flt.add32 thirdVolleyType.CurrentAngleOffset
                    thirdVolleyType.AngleOffsetIncrement)
                  (Flt.round32 (3 / 10))
                then -thirdVolleyType.AngleOffsetIncrement
                else thirdVolleyType.AngleOffsetIncrement)
        ∧ pt1.Name = thirdVolleyType.Name ∧ pt1.Reload = thirdVolleyType.Reload
        ∧ pt1.AtOnce = thirdVolleyType.AtOnce)
    ∧ Flt.round32 (3 / 10) = Flt.fin (5033165 / 16777216)
    ∧ Flt.round32 (1 / 10) = Flt.fin (13421773 / 134217728)
    ∧ stepOffset thirdVolleyType
        = { thirdVolleyType with CurrentAngleOffset := Flt.fin (5033165 / 16777216) } :=
  ⟨by simp [thirdVolleyType],
    (createProjectiles_offset scenarioHost thirdVolleyType scenarioEnemy.centre
      (by simp [thirdVolleyType])).1,
    by decide!, by decide!, by decide!⟩

/-- C6, as stated, fails: for the descriptor `negativeCountType`, whose count
is -1, the call does not return: `make` panics, and there is no offset after
the call. -/
theorem createProjectiles_offset_counterexample :
    CreateProjectiles scenarioHost negativeCountType scenarioEnemy.centre
      = .error .makesliceLenOutOfRange := by
  simp [CreateProjectiles, negativeCountType, scenarioType]

@[simp] theorem Flt.add32_fin (a b : ℚ) :
    Flt.add32 (Flt.fin a) (Flt.fin b) = Flt.round32 (a + b) := rfl

@[simp] theorem Flt.sub32_fin (a b : ℚ) :
    Flt.sub32 (Flt.fin a) (Flt.fin b) = Flt.round32 (a - b) := rfl

theorem lt_floor_add_one (x : ℚ) : x < x.floor + 1 := by
  by_contra hc
  push_neg at hc
  have h : x.floor + 1 ≤ x.floor := Rat.le_floor.mpr (by push_cast; exact hc)
  omega

theorem clamp_eq (W s v : ℚ) (h : s ≤ W) :
    clamp 0 (W - s) v = if v < 0 then 0 else if W < v + s then W - s else v := by
  unfold clamp
  split_ifs with h1 h2
  · rw [min_eq_left (by linarith), max_eq_left (by linarith)]
  · rw [min_eq_right (by linarith), max_eq_right (by linarith)]
  · rw [min_eq_left (by linarith), max_eq_right (by linarith)]

theorem clamp_mem (lo hi v : ℚ) (h : lo ≤ hi) : lo ≤ clamp lo hi v ∧ clamp lo hi v ≤ hi :=
  ⟨le_max_left _ _, max_le h (min_le_right _ _)⟩

theorem clamp_of_mem (lo hi v : ℚ) (h1 : lo ≤ v) (h2 : v ≤ hi) : clamp lo hi v = v := by
  unfold clamp
  rw [min_eq_left h2, max_eq_right h1]

/-- C8, as amended: for a player at the finite position `(x, y)` of the
finite size `w` by `h`, with `w ≤ 480` and `h ≤ 720`, and a finite delta
`(dx, dy)` for which the `float32` operations of `Move` are exact (the sums
`x + dx`, `(x + dx) + w` and the difference `480 - w`, and the same on the
other axis), `Move` puts the player at the clamp of `x + dx` to
`[0, 480 - w]` and of `y + dy` to `[0, 720 - h]`, each axis by itself, and
changes nothing else; so the new position is within these bounds, and a
target within them is reached exactly. -/
theorem move_clamps (x y w h dx dy : ℚ) (spd : Vector2) (hp : Int)
    (hw : w ≤ 480) (hh : h ≤ 720)
    (ex1 : Flt.round32 (x + dx) = Flt.fin (x + dx))
    (ex2 : Flt.round32 (x + dx + w) = Flt.fin (x + dx + w))
    (ex3 : Flt.round32 (480 - w) = Flt.fin (480 - w))
    (ey1 : Flt.round32 (y + dy) = Flt.fin (y + dy))
    (ey2 : Flt.round32 (y + dy + h) = Flt.fin (y + dy + h))
    (ey3 : Flt.round32 (720 - h) = Flt.fin (720 - h)) :
    Player.Move ⟨⟨Flt.fin x, Flt.fin y⟩, ⟨Flt.fin w, Flt.fin h⟩, spd, hp⟩
        (Flt.fin dx) (Flt.fin dy)
      = ⟨⟨Flt.fin (clamp 0 (480 - w) (x + dx)), Flt.fin (clamp 0 (720 - h) (y + dy))⟩,
          ⟨Flt.fin w, Flt.fin h⟩, spd, hp⟩
    ∧ (0 ≤ clamp 0 (480 - w) (x + dx) ∧ clamp 0 (480 - w) (x + dx) ≤ 480 - w)
    ∧ (0 ≤ clamp 0 (720 - h) (y + dy) ∧ clamp 0 (720 - h) (y + dy) ≤ 720 - h)
    ∧ (0 ≤ x + dx → x + dx ≤ 480 - w → clamp 0 (480 - w) (x + dx) = x + dx)
    ∧ (0 ≤ y + dy → y + dy ≤ 720 - h → clamp 0 (720 - h) (y + dy) = y + dy) := by
  refine ⟨?_, clamp_mem _ _ _ (by linarith), clamp_mem _ _ _ (by linarith),
    clamp_of_mem _ _ _, clamp_of_mem _ _ _⟩
  rw [clamp_eq 480 w _ hw, clamp_eq 720 h _ hh]
  by_cases h1 : x + dx < 0 <;> by_cases h2 : 480 < x + dx + w <;>
    by_cases h3 : y + dy < 0 <;> by_cases h4 : 720 < y + dy + h <;>
    simp [Player.Move, SCREEN_WIDTH, SCREEN_HEIGHT, ex1, ex2, ex3, ey1, ey2, ey3,
      h1, h2, h3, h4]

theorem move_clamps_witness :
    ((20 : ℚ) ≤ 480 ∧ (20 : ℚ) ≤ 720
      ∧ Flt.round32 (230 + 500) = Flt.fin (230 + 500)
      ∧ Flt.round32 (230 + 500 + 20) = Flt.fin (230 + 500 + 20)
      ∧ Flt.round32 (480 - 20) = Flt.fin (480 - 20)
      ∧ Flt.round32 (660 + -5) = Flt.fin (660 + -5)
      ∧ Flt.round32 (660 + -5 + 20) = Flt.fin (660 + -5 + 20)
      ∧ Flt.round32 (720 - 20) = Flt.fin (720 - 20))
    ∧ Player.Move ⟨⟨Flt.fin 230, Flt.fin 660⟩, ⟨Flt.fin 20, Flt.fin 20⟩,
          ⟨Flt.fin 5, Flt.fin 5⟩, 10⟩ (Flt.fin 500) (Flt.fin (-5))
        = ⟨⟨Flt.fin 460, Flt.fin 655⟩, ⟨Flt.fin 20, Flt.fin 20⟩, ⟨Flt.fin 5, Flt.fin 5⟩, 10⟩ := by
  have e1 : Flt.round32 (230 + 500) = Flt.fin (230 + 500) := by decide!
  have e2 : Flt.round32 (230 + 500 + 20) = Flt.fin (230 + 500 + 20) := by decide!
  have e3 : Flt.round32 (480 - 20) = Flt.fin (480 - 20) := by decide!
  have e4 : Flt.round32 (660 + -5) = Flt.fin (660 + -5) := by decide!
  have e5 : Flt.round32 (660 + -5 + 20) = Flt.fin (660 + -5 + 20) := by decide!
  have e6 : Flt.round32 (720 - 20) = Flt.fin (720 - 20) := by decide!
  refine ⟨⟨by norm_num, by norm_num, e1, e2, e3, e4, e5, e6⟩, ?_⟩
  have h := (move_clamps 230 660 20 20 500 (-5) ⟨Flt.fin 5, Flt.fin 5⟩ 10
    (by norm_num) (by norm_num) e1 e2 e3 e4 e5 e6).1
  rw [h]
  norm_num [clamp]

/-- C8, as stated, fails: the player `widePlayer` stands at `x = 0` and is
`480 - 41/4096` wide, so its position is to stay within `[0, 41/4096]`.  A
move by `41/4096 + 2^-30` has the `float32` sum of the new position and the
width rounded to 480, which is not above the screen width, so `Move` takes
the new position as it is: the player ends `2^-30` to the right of
`480 - width`. -/
theorem move_clamps_counterexample :
    widePlayer.Sz.X = Flt.fin (1966039 / 4096) ∧ (1966039 : ℚ) / 4096 ≤ 480
    ∧ Flt.round32 (10747905 / 1073741824 + 1966039 / 4096) = Flt.fin 480
    ∧ widePlayer.Move (Flt.fin (10747905 / 1073741824)) (Flt.fin 0)
        = { widePlayer with Pos := ⟨Flt.fin (10747905 / 1073741824), Flt.fin 660⟩ }
    ∧ (480 : ℚ) - 1966039 / 4096 < 10747905 / 1073741824 := by
  refine ⟨rfl, by norm_num, by decide!, by decide!, by norm_num⟩

/-! ## Collisions -/

theorem int8_sub_int8 (a b : Int) : int8 (int8 a - b) = int8 (a - b) := by
  unfold int8
  omega

theorem isInt8_int8 (a : Int) : isInt8 (int8 a) := by
  unfold isInt8 int8
  omega

theorem collideLoop_fst (host : Host) (rect : Rectangle) (pool : List Projectile) :
    ∀ hp : Int, (collideLoop host rect pool hp).1 = pool.map (markHit host rect) := by
  induction pool with
  | nil => intro hp; rfl
  | cons proj rest ih =>
    intro hp
    cases h : hits host rect proj with
    | true =>
      have h1 : (!proj.Harmless && host.CheckCollisionCircleRec proj.Pos proj.Sz.X rect)
          = true := h
      simp [collideLoop, h1, ih, markHit, h]
    | false =>
      have h1 : (!proj.Harmless && host.CheckCollisionCircleRec proj.Pos proj.Sz.X rect)
          = false := h
      simp [collideLoop, h1, ih, markHit, h]

theorem collideLoop_snd (host : Host) (rect : Rectangle) (pool : List Projectile) :
    ∀ hp : Int, (collideLoop host rect pool hp).2
      = (pool.filter (hits host rect)).foldl (fun h proj => int8 (h - proj.Damage)) hp := by
  induction pool with
  | nil => intro hp; rfl
  | cons proj rest ih =>
    intro hp
    cases h : hits host rect proj with
    | true =>
      have h1 : (!proj.Harmless && host.CheckCollisionCircleRec proj.Pos proj.Sz.X rect)
          = true := h
      simp [collideLoop, h1, ih, List.filter_cons, h]
    | false =>
      have h1 : (!proj.Harmless && host.CheckCollisionCircleRec proj.Pos proj.Sz.X rect)
          = false := h
      simp [collideLoop, h1, ih, List.filter_cons, h]

theorem foldl_damage (ps : List Projectile) :
    ∀ hp : Int, isInt8 hp →
      ps.foldl (fun h proj => int8 (h - proj.Damage)) hp
        = int8 (hp - (ps.map Projectile.Damage).sum) := by
  induction ps with
  | nil => intro hp h; simp [int8_eq_self h]
  | cons proj rest ih =>
    intro hp _
    simp only [List.foldl_cons, List.map_cons, List.sum_cons]
    rw [ih _ (isInt8_int8 _), int8_sub_int8]
    congr 1
    ring

theorem hits_markHit (host : Host) (rect : Rectangle) (proj : Projectile) :
    hits host rect (markHit host rect proj) = false := by
  cases h : hits host rect proj with
  | true =>
    rw [markHit, if_pos h]
    simp [hits]
  | false =>
    rw [markHit, if_neg (by simp [h])]
    exact h

/-- C9: for a game whose hit points are an `int8` and stay one when the
total damage of the hitting projectiles is taken off, `CheckCollisions`
leaves the hit points at the old value minus that total damage, makes
exactly the hitting projectiles harmless, and changes nothing else; the
hitting projectiles are those that were not harmless and that
`CheckCollisionCircleRec` reports against the player rectangle. -/
theorem checkCollisions_post (host : Host) (g : Game)
    (h0 : isInt8 g.Player.HP)
    (h1 : isInt8 (g.Player.HP - totalDamage host g.playerRect g.Enemy.Projectiles)) :
    CheckCollisions host g
      = { g with
          Player :=
            { g.Player with
              HP := g.Player.HP - totalDamage host g.playerRect g.Enemy.Projectiles }
          Enemy :=
            { g.Enemy with
              Projectiles := g.Enemy.Projectiles.map (markHit host g.playerRect) } }
    ∧ (∀ proj, markHit host g.playerRect proj
        = if !proj.Harmless && host.CheckCollisionCircleRec proj.Pos proj.Sz.X g.playerRect
          then { proj with Harmless := true } else proj) := by
  refine ⟨?_, fun proj => rfl⟩
  unfold CheckCollisions
  simp only [collideLoop_fst, collideLoop_snd]
  rw [foldl_damage _ _ h0]
  unfold totalDamage at h1 ⊢
  rw [int8_eq_self h1]

theorem checkCollisions_post_witness :
    (isInt8 scenarioGame.Player.HP
      ∧ isInt8 (scenarioGame.Player.HP
          - totalDamage scenarioHost scenarioGame.playerRect scenarioGame.Enemy.Projectiles))
    ∧ CheckCollisions scenarioHost scenarioGame
      = { scenarioGame with
          Player := { scenarioGame.Player with HP := 7 }
          Enemy :=
            { scenarioGame.Enemy with
              Projectiles := [{ scenarioProjectile with Harmless := true }] } } := by
  have hh : hits scenarioHost scenarioGame.playerRect scenarioProjectile = true := by
    norm_num [hits, scenarioHost, scenarioGame, Game.playerRect, scenarioProjectile]
  have ht : totalDamage scenarioHost scenarioGame.playerRect scenarioGame.Enemy.Projectiles
      = 3 := by
    have : scenarioGame.Enemy.Projectiles = [scenarioProjectile] := rfl
    rw [this]
    simp [totalDamage, List.filter_cons, hh]
    rfl
  have h0 : isInt8 scenarioGame.Player.HP := by
    norm_num [isInt8, scenarioGame]
  have h1 : isInt8 (scenarioGame.Player.HP
      - totalDamage scenarioHost scenarioGame.playerRect scenarioGame.Enemy.Projectiles) := by
    rw [ht]
    norm_num [isInt8, scenarioGame]
  refine ⟨⟨h0, h1⟩, ?_⟩
  rw [(checkCollisions_post scenarioHost scenarioGame h0 h1).1, ht]
  have hm : scenarioGame.Enemy.Projectiles.map (markHit scenarioHost scenarioGame.playerRect)
      = [{ scenarioProjectile with Harmless := true }] := by
    have : scenarioGame.Enemy.Projectiles = [scenarioProjectile] := rfl
    rw [this]
    simp [markHit, hh]
  rw [hm]
  rfl

theorem checkCollisions_eq (host : Host) (g : Game) :
    CheckCollisions host g
      = { g with
          Player :=
            { g.Player with
              HP := (g.Enemy.Projectiles.filter (hits host g.playerRect)).foldl
                (fun h proj => int8 (h - proj.Damage)) g.Player.HP }
          Enemy :=
            { g.Enemy with
              Projectiles := g.Enemy.Projectiles.map (markHit host g.playerRect) } } := by
  unfold CheckCollisions
  simp only [collideLoop_fst, collideLoop_snd]

theorem hits_of_harmless (host : Host) (rect : Rectangle) (proj : Projectile)
    (h : proj.Harmless = true) : hits host rect proj = false := by
  simp [hits, h]

theorem markHit_harmless (host : Host) (rect : Rectangle) (proj : Projectile)
    (h : proj.Harmless = true) : (markHit host rect proj).Harmless = true := by
  unfold markHit
  split
  · rfl
  · exact h

theorem filter_hits_map_markHit (host : Host) (rect : Rectangle) (pool : List Projectile) :
    (pool.map (markHit host rect)).filter (hits host rect) = [] := by
  rw [List.filter_eq_nil_iff]
  intro proj hmem
  obtain ⟨q, _, rfl⟩ := List.mem_map.mp hmem
  simp [hits_markHit]

theorem map_markHit_map_markHit (host : Host) (rect : Rectangle) (pool : List Projectile) :
    (pool.map (markHit host rect)).map (markHit host rect) = pool.map (markHit host rect) := by
  rw [List.map_map]
  apply List.map_congr_left
  intro proj _
  show markHit host rect (markHit host rect proj) = markHit host rect proj
  have h := hits_markHit host rect proj
  generalize markHit host rect proj = q at h ⊢
  simp [markHit, h]

/-- C10: `CheckCollisions` keeps the pool's length and never clears a
harmless flag; a projectile that is harmless before the call, wherever it
lies, leaves the hit points after the call what they are without it; and
`CheckCollisions` applied twice gives the game that it gives applied
once. -/
theorem checkCollisions_latch (host : Host) (g : Game) :
    (CheckCollisions host g).Enemy.Projectiles.length = g.Enemy.Projectiles.length
    ∧ (∀ (i : Nat) (h1 : i < g.Enemy.Projectiles.length)
        (h2 : i < (CheckCollisions host g).Enemy.Projectiles.length),
        g.Enemy.Projectiles[i].Harmless = true →
        (CheckCollisions host g).Enemy.Projectiles[i].Harmless = true)
    ∧ (∀ (before after : List Projectile) (q : Projectile), q.Harmless = true →
        g.Enemy.Projectiles = before ++ q :: after →
        (CheckCollisions host g).Player.HP
          = (CheckCollisions host
              { g with Enemy := { g.Enemy with Projectiles := before ++ after } }).Player.HP)
    ∧ CheckCollisions host (CheckCollisions host g) = CheckCollisions host g := by
  refine ⟨?_, ?_, ?_, ?_⟩
  · simp [checkCollisions_eq]
  · intro i h1 h2 hh
    simp only [checkCollisions_eq, List.getElem_map]
    exact markHit_harmless host _ _ hh
  · intro before after q hq hpool
    have hq1 := hits_of_harmless host g.playerRect q hq
    simp only [checkCollisions_eq, hpool, Game.playerRect, List.filter_append,
      List.filter_cons]
    simp only [Game.playerRect] at hq1
    simp [hq1]
  · rw [checkCollisions_eq host g, checkCollisions_eq]
    simp only [Game.playerRect, filter_hits_map_markHit, map_markHit_map_markHit,
      List.foldl_nil]

/-! ## The game state machine -/

@[simp] theorem Flt.le_fin_fin (a b : ℚ) : Flt.le (Flt.fin a) (Flt.fin b) = decide (a ≤ b) :=
  rfl

@[simp] theorem Flt.abs_fin (a : ℚ) : Flt.abs (Flt.fin a) = Flt.fin |a| := rfl

theorem checkGameOver_gameOver (g : Game) :
    (CheckGameOver g).GameOver = true ↔ (g.GameOver = true ∨ g.Player.HP ≤ 0) := by
  unfold CheckGameOver
  split <;> simp_all

theorem checkGameOver_player (g : Game) : (CheckGameOver g).Player = g.Player := by
  unfold CheckGameOver
  split <;> rfl

/-- A call of `Update` that returns from a game that is neither over nor
paused after the toggle has run the scheduler, the pool, the collisions and
the game-over check, in this order, and has advanced the frame counter. -/
theorem update_running (host : Host) (keys : Keys) (g g1 : Game)
    (hgo : g.GameOver = false)
    (hrun : (if keys.KeyP then !g.Pause else g.Pause) = false)
    (h : Update host keys g = .ok g1) :
    ∃ e1 e2, RunBehaviour host g.Enemy g.Frames = .ok e1
      ∧ UpdateProjectilesPos host e1 = .ok e2
      ∧ g1 = { CheckGameOver (CheckCollisions host
                { g with Pause := false, Player := movePlayer keys g.Player, Enemy := e2 })
               with Frames := int32 (g.Frames + 1) } := by
  obtain ⟨sw, sh, fr, go, pa, pl, en⟩ := g
  simp only at hgo hrun
  subst hgo
  have hp : (if keys.KeyP then
        ({ ScreenWidth := sw, ScreenHeight := sh, Frames := fr, GameOver := false,
           Pause := !pa, Player := pl, Enemy := en } : Game)
      else ⟨sw, sh, fr, false, pa, pl, en⟩)
      = ⟨sw, sh, fr, false, false, pl, en⟩ := by
    cases hk : keys.KeyP <;> simp_all
  unfold Update at h
  simp only [hp, Bool.or_self, Bool.false_eq_true, if_false] at h
  cases hr : RunBehaviour host en fr with
  | error p => simp [hr] at h
  | ok e1 =>
    cases hu : UpdateProjectilesPos host e1 with
    | error p => simp [hr, hu] at h
    | ok e2 =>
      simp only [hr, hu, Except.ok.injEq] at h
      refine ⟨e1, e2, rfl, hu, ?_⟩
      rw [← h]
      simp only [CheckGameOver, CheckCollisions]
      split <;> rfl

theorem fourHits_step (k : Nat) (hk : k < 4) :
    Update raylibHost noKeys (fourHits k) = .ok (fourHits (k + 1)) := by
  interval_cases k <;>
    norm_num [Update, noKeys, fourHits, movePlayer, RunBehaviour, selectLoop, scenarioEnemy,
      UpdateProjectilesPos, pruneLoop, List.range, List.range.loop, integrate, fallingBig,
      CheckOutOfBounds, raylibHost, scenarioHost, CheckCollisions, collideLoop,
      Game.playerRect, rlCheckCollisionCircleRec, Flt.fin_div_fin, CheckGameOver, int8, int32]

/-- C11: a call of `Update` on a game that is not over and, after the
toggle, not paused, leaves `GameOver` set if and only if the hit points it
leaves are at most 0; these hit points are the ones `CheckCollisions` has
left, on which `CheckGameOver` has run once.  `CheckGameOver` sets the flag
exactly when it was set or the hit points are at most 0, so it never clears
it, and it leaves the player as it was. -/
theorem update_gameOver (host : Host) (keys : Keys) (g g1 : Game)
    (hgo : g.GameOver = false)
    (hrun : (if keys.KeyP then !g.Pause else g.Pause) = false)
    (h : Update host keys g = .ok g1) :
    (g1.GameOver = true ↔ g1.Player.HP ≤ 0)
    ∧ (∃ g2 : Game, g2.GameOver = false
        ∧ g1 = { CheckGameOver (CheckCollisions host g2) with
                 Frames := int32 (g.Frames + 1) }
        ∧ g1.Player.HP = (CheckCollisions host g2).Player.HP)
    ∧ (∀ g0 : Game,
        ((CheckGameOver g0).GameOver = true ↔ (g0.GameOver = true ∨ g0.Player.HP ≤ 0))
        ∧ (g0.GameOver = true → (CheckGameOver g0).GameOver = true)
        ∧ (CheckGameOver g0).Player = g0.Player) := by
  obtain ⟨e1, e2, _, _, hg⟩ := update_running host keys g g1 hgo hrun h
  have hgo2 : (CheckCollisions host
      { g with Pause := false, Player := movePlayer keys g.Player, Enemy := e2 }).GameOver
      = false := hgo
  refine ⟨?_, ⟨{ g with Pause := false, Player := movePlayer keys g.Player, Enemy := e2 },
    hgo, hg, ?_⟩, fun g0 => ⟨checkGameOver_gameOver g0, fun h0 =>
    (checkGameOver_gameOver g0).mpr (Or.inl h0), checkGameOver_player g0⟩⟩
  · rw [hg]
    show (CheckGameOver _).GameOver = true ↔ (CheckGameOver _).Player.HP ≤ 0
    rw [checkGameOver_gameOver, checkGameOver_player, hgo2]
    simp
  · rw [hg]
    show (CheckGameOver _).Player.HP = _
    rw [checkGameOver_player]

theorem update_gameOver_witness :
    ((fourHits 3).GameOver = false
      ∧ (if noKeys.KeyP then !(fourHits 3).Pause else (fourHits 3).Pause) = false
      ∧ Update raylibHost noKeys (fourHits 3) = .ok (fourHits 4))
    ∧ ((fourHits 4).GameOver = true ↔ (fourHits 4).Player.HP ≤ 0)
    ∧ updates raylibHost [noKeys, noKeys, noKeys, noKeys] (fourHits 0) = .ok (fourHits 4)
    ∧ ((fourHits 0).Player.HP = 10 ∧ (fourHits 0).GameOver = false)
    ∧ ((fourHits 1).Player.HP = 7 ∧ (fourHits 1).GameOver = false)
    ∧ ((fourHits 2).Player.HP = 4 ∧ (fourHits 2).GameOver = false)
    ∧ ((fourHits 3).Player.HP = 1 ∧ (fourHits 3).GameOver = false)
    ∧ ((fourHits 4).Player.HP = -2 ∧ (fourHits 4).GameOver = true) := by
  have h3 := fourHits_step 3 (by norm_num)
  refine ⟨⟨rfl, rfl, h3⟩,
    (update_gameOver raylibHost noKeys (fourHits 3) (fourHits 4) rfl rfl h3).1, ?_,
    ⟨rfl, rfl⟩, ⟨rfl, rfl⟩, ⟨rfl, rfl⟩, ⟨rfl, rfl⟩, ⟨rfl, rfl⟩⟩
  simp only [updates, fourHits_step 0 (by norm_num), fourHits_step 1 (by norm_num),
    fourHits_step 2 (by norm_num), h3]

/-! ## Game over -/

theorem update_over (host : Host) (keys : Keys) (g : Game) (hgo : g.GameOver = true) :
    Update host keys g = .ok { g with Pause := if keys.KeyP then !g.Pause else g.Pause } := by
  obtain ⟨sw, sh, fr, go, pa, pl, en⟩ := g
  simp only at hgo
  subst hgo
  cases hk : keys.KeyP <;> simp [Update, hk]

/-- C12: on a game that is over, `Update` returns, whatever the keys, and
leaves `GameOver` set and the player, the enemy and the frame counter as
they were; and so does every sequence of `Update` calls from there, so the
game stays over in every state reached. -/
theorem update_gameOver_latched (host : Host) (g : Game) (hgo : g.GameOver = true) :
    (∀ keys : Keys, ∃ g1, Update host keys g = .ok g1
      ∧ g1.GameOver = true ∧ g1.Player = g.Player ∧ g1.Enemy = g.Enemy
      ∧ g1.Frames = g.Frames)
    ∧ (∀ inputs : List Keys, ∃ g1, updates host inputs g = .ok g1
      ∧ g1.GameOver = true ∧ g1.Player = g.Player ∧ g1.Enemy = g.Enemy
      ∧ g1.Frames = g.Frames) := by
  constructor
  · intro keys
    exact ⟨_, update_over host keys g hgo, hgo, rfl, rfl, rfl⟩
  · intro inputs
    induction inputs generalizing g with
    | nil => exact ⟨g, rfl, hgo, rfl, rfl, rfl⟩
    | cons keys rest ih =>
      obtain ⟨g2, h2, hgo2, hp2, he2, hf2⟩ :=
        ih { g with Pause := if keys.KeyP then !g.Pause else g.Pause } hgo
      refine ⟨g2, ?_, hgo2, hp2, he2, hf2⟩
      simp only [updates, update_over host keys g hgo]
      exact h2

theorem update_gameOver_latched_witness :
    overGame.GameOver = true
    ∧ (∀ keys : Keys, ∃ g1, Update raylibHost keys overGame = .ok g1
        ∧ g1.GameOver = true ∧ g1.Player = overGame.Player ∧ g1.Enemy = overGame.Enemy
        ∧ g1.Frames = overGame.Frames)
    ∧ Update raylibHost ⟨true, true, true, true, true⟩ overGame
        = .ok { overGame with Pause := true } :=
  ⟨rfl, (update_gameOver_latched raylibHost overGame rfl).1,
    by simp [Update, overGame, scenarioGame]⟩

/-- C13, as amended: on a game that is over, `Update` returns the game with
every field as it was except the pause flag, which is flipped exactly when
the toggle was pressed; without the toggle the game is returned
unchanged. -/
theorem update_over_terminal (host : Host) (keys : Keys) (g : Game)
    (hgo : g.GameOver = true) :
    Update host keys g = .ok { g with Pause := if keys.KeyP then !g.Pause else g.Pause }
    ∧ (keys.KeyP = false → Update host keys g = .ok g) := by
  refine ⟨update_over host keys g hgo, fun hk => ?_⟩
  rw [update_over host keys g hgo, hk]
  rfl

theorem update_over_terminal_witness :
    overGame.GameOver = true
    ∧ Update raylibHost ⟨false, true, true, true, true⟩ overGame
        = .ok { overGame with
                Pause := if false then !overGame.Pause else overGame.Pause }
    ∧ Update raylibHost ⟨false, true, true, true, true⟩ overGame = .ok overGame :=
  ⟨rfl, (update_over_terminal raylibHost ⟨false, true, true, true, true⟩ overGame rfl).1,
    (update_over_terminal raylibHost ⟨false, true, true, true, true⟩ overGame rfl).2 rfl⟩

/-- C13, as stated, fails: on the game `overGame`, which is over and not
paused, a call of `Update` with the toggle pressed returns the game paused,
which is not the game it was given. -/
theorem update_over_terminal_counterexample :
    overGame.GameOver = true ∧ overGame.Pause = false
    ∧ Update raylibHost ⟨true, false, false, false, false⟩ overGame
        = .ok { overGame with Pause := true }
    ∧ Update raylibHost ⟨true, false, false, false, false⟩ overGame ≠ .ok overGame := by
  have h : Update raylibHost ⟨true, false, false, false, false⟩ overGame
      = .ok { overGame with Pause := true } := by
    simp [Update, overGame, scenarioGame]
  refine ⟨rfl, rfl, h, ?_⟩
  rw [h]
  intro hc
  have hp := congrArg Game.Pause (Except.ok.inj hc)
  simp [overGame, scenarioGame] at hp

/-! ## Hit points in eight bits -/

/-- C14 fails on the code: with 10 hit points and 47 projectiles of damage 3
that hit in the same call, `CheckCollisions` leaves 125 hit points: the
`int8` subtraction wraps round at -128, and the hit points after the call
are greater than before. -/
theorem checkCollisions_wraps :
    (∀ proj, proj ∈ crowdedGame.Enemy.Projectiles → 0 ≤ proj.Damage)
    ∧ crowdedGame.Player.HP = 10
    ∧ (CheckCollisions raylibHost crowdedGame).Player.HP = 125
    ∧ crowdedGame.Player.HP < (CheckCollisions raylibHost crowdedGame).Player.HP := by
  have hh : hits raylibHost crowdedGame.playerRect scenarioProjectile = true := by
    norm_num [hits, raylibHost, rlCheckCollisionCircleRec, crowdedGame, scenarioGame,
      Game.playerRect, scenarioProjectile, Flt.fin_div_fin]
  have hpool : crowdedGame.Enemy.Projectiles = List.replicate 47 scenarioProjectile := rfl
  have hhp : crowdedGame.Player.HP = 10 := rfl
  have hres : (CheckCollisions raylibHost crowdedGame).Player.HP = 125 := by
    rw [checkCollisions_eq]
    show List.foldl _ crowdedGame.Player.HP
      (List.filter (hits raylibHost crowdedGame.playerRect) crowdedGame.Enemy.Projectiles)
      = 125
    rw [hpool, hhp, List.filter_eq_self.mpr (fun q hq => by
      rw [List.eq_of_mem_replicate hq]; exact hh),
      foldl_damage _ _ (by norm_num [isInt8])]
    simp [scenarioProjectile, int8]
  refine ⟨?_, hhp, hres, ?_⟩
  · intro proj hmem
    rw [hpool] at hmem
    rw [List.eq_of_mem_replicate hmem]
    norm_num [scenarioProjectile]
  · rw [hres, hhp]
    norm_num

/-! ## The end of the schedule -/

theorem durationSum_nonneg (bs : List Behaviour) (h : ∀ b, b ∈ bs → 0 ≤ b.Frames) :
    0 ≤ durationSum bs bs.length := by
  induction bs with
  | nil => simp
  | cons b rest ih =>
    have h1 := h b (List.mem_cons_self _ _)
    have h2 := ih (fun q hq => h q (List.mem_cons_of_mem _ hq))
    simp only [List.length_cons, durationSum_cons_succ]
    omega

theorem selectLoop_exhausted (bs : List Behaviour) :
    ∀ (k : Nat) (f : Int), isInt32 f → (∀ b, b ∈ bs → 0 ≤ b.Frames) →
      durationSum bs bs.length ≤ f →
      selectLoop bs k f = (f - durationSum bs bs.length, none) := by
  induction bs with
  | nil => intro k f _ _ _; simp [selectLoop]
  | cons b rest ih =>
    intro k f hf hd hsum
    have h1 := hd b (List.mem_cons_self _ _)
    have hrest : ∀ q, q ∈ rest → 0 ≤ q.Frames := fun q hq => hd q (List.mem_cons_of_mem _ hq)
    have h2 := durationSum_nonneg rest hrest
    simp only [List.length_cons, durationSum_cons_succ] at hsum ⊢
    have hin : isInt32 (f - b.Frames) := by
      unfold isInt32 at hf ⊢
      omega
    have h0 : ¬ (f - b.Frames < 0) := by omega
    simp only [selectLoop, int32_eq_self hin, h0, if_false]
    rw [ih (k + 1) (f - b.Frames) hin hrest (by omega)]
    congr 1
    omega

/-- C15: when the durations of the behaviours are not negative and the frame
`f` (an `int32`) is at least their sum, `RunBehaviour` selects no behaviour
and returns the enemy as it was, pool and descriptors included; and so it
does on every later frame. -/
theorem runBehaviour_exhausted (host : Host) (e : Enemy) (f : Int)
    (hf : isInt32 f)
    (hd : ∀ b, b ∈ e.Behaviours → 0 ≤ b.Frames)
    (hsum : durationSum e.Behaviours e.Behaviours.length ≤ f) :
    (selectLoop e.Behaviours 0 f).2 = none
    ∧ RunBehaviour host e f = .ok e
    ∧ (∀ f1 : Int, f ≤ f1 → isInt32 f1 → RunBehaviour host e f1 = .ok e) := by
  have key : ∀ f1 : Int, f ≤ f1 → isInt32 f1 →
      selectLoop e.Behaviours 0 f1
        = (f1 - durationSum e.Behaviours e.Behaviours.length, none) :=
    fun f1 hle h1 => selectLoop_exhausted e.Behaviours 0 f1 h1 hd (by omega)
  refine ⟨by rw [key f le_rfl hf], ?_, fun f1 hle h1 => ?_⟩
  · simp [RunBehaviour, key f le_rfl hf]
  · simp [RunBehaviour, key f1 hle h1]

theorem runBehaviour_exhausted_witness :
    (isInt32 120
      ∧ (∀ b, b ∈ scenarioEnemy.Behaviours → 0 ≤ b.Frames)
      ∧ durationSum scenarioEnemy.Behaviours scenarioEnemy.Behaviours.length ≤ 120)
    ∧ RunBehaviour raylibHost scenarioEnemy 120 = .ok scenarioEnemy
    ∧ RunBehaviour raylibHost scenarioEnemy 100000 = .ok scenarioEnemy := by
  have h1 : isInt32 120 := by norm_num [isInt32]
  have h2 : ∀ b, b ∈ scenarioEnemy.Behaviours → 0 ≤ b.Frames := by
    simp [scenarioEnemy]
  have h3 : durationSum scenarioEnemy.Behaviours scenarioEnemy.Behaviours.length ≤ 120 := by
    simp [scenarioEnemy, durationSum]
  have h := runBehaviour_exhausted raylibHost scenarioEnemy 120 h1 h2 h3
  exact ⟨⟨h1, h2, h3⟩, h.2.1, h.2.2 100000 (by norm_num) (by norm_num [isInt32])⟩

/-! ## The archetypes -/

/-- C16: every projectile that `CreateProjectiles` returns has damage 1 and
size 10 by 10 when the name of the descriptor is "small", damage 3 and size
30 by 30 when it is "big", and damage 2 and size 20 by 20 for every other
name, the empty one included. -/
theorem createProjectiles_archetype (host : Host) (pt pt1 : ProjectileType)
    (pos : Vector2) (ps : List Projectile)
    (h : CreateProjectiles host pt pos = .ok (pt1, ps)) :
    ∀ proj, proj ∈ ps →
      (pt.Name = "small" → proj.Damage = 1 ∧ proj.Sz = ⟨Flt.fin 10, Flt.fin 10⟩)
      ∧ (pt.Name = "big" → proj.Damage = 3 ∧ proj.Sz = ⟨Flt.fin 30, Flt.fin 30⟩)
      ∧ (pt.Name ≠ "small" → pt.Name ≠ "big" →
          proj.Damage = 2 ∧ proj.Sz = ⟨Flt.fin 20, Flt.fin 20⟩) := by
  intro proj hmem
  unfold CreateProjectiles at h
  split at h
  · cases h
  · simp only [Except.ok.injEq, Prod.mk.injEq] at h
    rw [← h.2] at hmem
    obtain ⟨i, _, rfl⟩ := List.mem_map.mp hmem
    refine ⟨fun hn => ?_, fun hn => ?_, fun hn1 hn2 => ?_⟩
    · simp [slotProjectile, archetype, hn]
    · simp [slotProjectile, archetype, hn]
    · simp [slotProjectile, archetype, hn1, hn2]

theorem createProjectiles_archetype_witness :
    CreateProjectiles raylibHost scenarioType scenarioEnemy.centre
        = .ok (stepOffset scenarioType, volley raylibHost scenarioEnemy.centre scenarioType)
    ∧ (volley raylibHost scenarioEnemy.centre scenarioType).length = 7
    ∧ ∀ proj, proj ∈ volley raylibHost scenarioEnemy.centre scenarioType →
        (scenarioType.Name = "small" → proj.Damage = 1 ∧ proj.Sz = ⟨Flt.fin 10, Flt.fin 10⟩)
        ∧ (scenarioType.Name = "big" → proj.Damage = 3 ∧ proj.Sz = ⟨Flt.fin 30, Flt.fin 30⟩)
        ∧ (scenarioType.Name ≠ "small" → scenarioType.Name ≠ "big" →
            proj.Damage = 2 ∧ proj.Sz = ⟨Flt.fin 20, Flt.fin 20⟩) := by
  have h := createProjectiles_ok raylibHost scenarioType scenarioEnemy.centre
    (by simp [scenarioType])
  exact ⟨h, by simp [volley_length, scenarioType],
    createProjectiles_archetype raylibHost scenarioType _ scenarioEnemy.centre _ h⟩

/-! ## The descriptors after a call of the scheduler -/

/-- The second loop of `RunBehaviour`, when it returns, has stepped the
offset of exactly the types whose reload divides the frame value and has
appended their volleys to the pool. -/
theorem fireLoop_result (host : Host) (origin : Vector2) (r : Int)
    (types : List ProjectileType) :
    ∀ (pool : List Projectile) (types1 : List ProjectileType) (pool1 : List Projectile),
      fireLoop host origin r types pool = .ok (types1, pool1) →
      types1 = types.map (fun pt => if pt.Reload ∣ r then stepOffset pt else pt)
      ∧ pool1 = pool ++ volleys host origin r types := by
  induction types with
  | nil =>
    intro pool types1 pool1 h
    simp only [fireLoop, Except.ok.injEq, Prod.mk.injEq] at h
    obtain ⟨rfl, rfl⟩ := h
    simp [volleys_nil]
  | cons pt rest ih =>
    intro pool types1 pool1 h
    unfold fireLoop at h
    by_cases h0 : pt.Reload = 0
    · simp [h0] at h
    · simp only [h0, if_false] at h
      by_cases hd : pt.Reload ∣ r
      · have ht : Int.tmod r pt.Reload = 0 := Int.tmod_eq_zero_of_dvd hd
        simp only [ht, if_true] at h
        by_cases hn : pt.AtOnce < 0
        · simp [createProjectiles_panic host pt origin hn] at h
        · rw [createProjectiles_ok host pt origin (not_lt.mp hn)] at h
          simp only at h
          cases hrest : fireLoop host origin r rest (pool ++ volley host origin pt) with
          | error p => simp [hrest] at h
          | ok res =>
            obtain ⟨rest1, pool2⟩ := res
            simp only [hrest, Except.ok.injEq, Prod.mk.injEq] at h
            obtain ⟨h1, h2⟩ := ih _ _ _ hrest
            simp [← h.1, ← h.2, h1, h2, hd, volleys_cons, List.append_assoc]
      · have ht : ¬ Int.tmod r pt.Reload = 0 := fun hz => hd (Int.dvd_of_tmod_eq_zero hz)
        simp only [ht, if_false] at h
        cases hrest : fireLoop host origin r rest pool with
        | error p => simp [hrest] at h
        | ok res =>
          obtain ⟨rest1, pool2⟩ := res
          simp only [hrest, Except.ok.injEq, Prod.mk.injEq] at h
          obtain ⟨h1, h2⟩ := ih _ _ _ hrest
          simp [← h.1, ← h.2, h1, h2, hd, volleys_cons]

theorem selectLoop_getElem (bs : List Behaviour) :
    ∀ (k : Nat) (f r : Int) (i : Nat) (b : Behaviour),
      selectLoop bs k f = (r, some (i, b)) → k ≤ i ∧ bs[i - k]? = some b := by
  induction bs with
  | nil => intro k f r i b h; simp [selectLoop] at h
  | cons b0 rest ih =>
    intro k f r i b h
    unfold selectLoop at h
    by_cases hneg : int32 (f - b0.Frames) < 0
    · simp only [hneg, if_true, Prod.mk.injEq, Option.some.injEq] at h
      obtain ⟨_, rfl, rfl⟩ := h
      simp
    · simp only [hneg, if_false] at h
      obtain ⟨hk, hb⟩ := ih _ _ _ _ _ h
      refine ⟨by omega, ?_⟩
      have : i - k = (i - (k + 1)) + 1 := by omega
      rw [this, List.getElem?_cons_succ]
      exact hb

/-- C17: when the first loop of `RunBehaviour` selects behaviour `i` and
leaves the frame value `r`, then after the call the behaviours of the enemy
are the ones before the call, except that in behaviour `i` every projectile
type that fired (its reload divides `r`) has gone through the offset step,
so its offset is the old offset plus the increment; the types that did not
fire and all other behaviours are as before. -/
theorem runBehaviour_descriptors (host : Host) (e e1 : Enemy) (f r : Int) (i : Nat)
    (b : Behaviour)
    (hsel : selectLoop e.Behaviours 0 f = (r, some (i, b)))
    (h : RunBehaviour host e f = .ok e1) :
    e.Behaviours[i]? = some b
    ∧ e1.Behaviours
        = e.Behaviours.set i
            { b with
              ProjectileTypes :=
                b.ProjectileTypes.map
                  (fun pt => if pt.Reload ∣ r then stepOffset pt else pt) }
    ∧ (∀ pt : ProjectileType,
        (stepOffset pt).CurrentAngleOffset
          = Flt.add32 pt.CurrentAngleOffset pt.AngleOffsetIncrement)
    ∧ (∀ k : Nat, k ≠ i → e1.Behaviours[k]? = e.Behaviours[k]?)
    ∧ (∀ (j : Nat) (pt : ProjectileType),
        b.ProjectileTypes[j]? = some pt →
        ∃ b1, e1.Behaviours[i]? = some b1 ∧ b1.Frames = b.Frames
          ∧ b1.ProjectileTypes[j]?
              = some (if pt.Reload ∣ r then stepOffset pt else pt)) := by
  have hget : e.Behaviours[i]? = some b := by
    simpa using (selectLoop_getElem e.Behaviours 0 f r i b hsel).2
  have hi : i < e.Behaviours.length := by
    by_contra hcon
    rw [List.getElem?_eq_none (by omega)] at hget
    cases hget
  have hb : e1.Behaviours
      = e.Behaviours.set i
          { b with
            ProjectileTypes :=
              b.ProjectileTypes.map
                (fun pt => if pt.Reload ∣ r then stepOffset pt else pt) } := by
    simp only [RunBehaviour, hsel] at h
    cases hfire : fireLoop host e.centre r b.ProjectileTypes e.Projectiles with
    | error p => simp [hfire] at h
    | ok res =>
      obtain ⟨types1, pool1⟩ := res
      simp only [hfire, Except.ok.injEq] at h
      obtain ⟨h1, _⟩ := fireLoop_result _ _ _ _ _ _ _ hfire
      rw [← h, ← h1]
  refine ⟨hget, hb, fun pt => rfl, fun k hk => ?_, fun j pt hj => ?_⟩
  · rw [hb, List.getElem?_set_ne (Ne.symm hk)]
  · refine ⟨{ b with
              ProjectileTypes :=
                b.ProjectileTypes.map
                  (fun pt => if pt.Reload ∣ r then stepOffset pt else pt) }, ?_, rfl, ?_⟩
    · rw [hb, List.getElem?_set_self hi]
    · simp [List.getElem?_map, hj]

theorem scenario_fire (pt : ProjectileType) (pool : List Projectile) (r : Int)
    (h1 : pt.Reload = 60) (h2 : 0 ≤ pt.AtOnce) (h3 : (60 : Int) ∣ r) :
    fireLoop raylibHost scenarioEnemy.centre r [pt] pool
      = .ok ([stepOffset pt], pool ++ volley raylibHost scenarioEnemy.centre pt) := by
  have hd : pt.Reload ∣ r := by rw [h1]; exact h3
  rw [fireLoop_ok _ _ _ _ _ (by simp [h1, h2])]
  simp [volleys_cons, volleys_nil, hd]

theorem runBehaviour_descriptors_witness :
    (selectLoop scenarioEnemy.Behaviours 0 0 = (-120, some (0, ⟨120, [scenarioType]⟩))
      ∧ RunBehaviour raylibHost scenarioEnemy 0 = .ok scenarioEnemyFired)
    ∧ scenarioEnemyFired.Behaviours
        = scenarioEnemy.Behaviours.set 0
            { Frames := 120,
              ProjectileTypes :=
                [scenarioType].map
                  (fun pt => if pt.Reload ∣ (-120 : Int) then stepOffset pt else pt) }
    ∧ scenarioEnemyFired.Behaviours
        = [{ Frames := 120, ProjectileTypes := [stepOffset scenarioType] }]
    ∧ (stepOffset scenarioType).CurrentAngleOffset = Flt.round32 (8 / 100)
    ∧ Flt.round32 (8 / 100) = Flt.fin (5368709 / 67108864)
    ∧ RunBehaviour raylibHost scenarioEnemyFired 60
        = .ok { scenarioEnemy with
                Projectiles :=
                  volley raylibHost scenarioEnemy.centre scenarioType
                    ++ volley raylibHost scenarioEnemy.centre (stepOffset scenarioType)
                Behaviours :=
                  [{ Frames := 120,
                     ProjectileTypes := [stepOffset (stepOffset scenarioType)] }] } := by
  have hsel : selectLoop scenarioEnemy.Behaviours 0 0
      = (-120, some (0, ⟨120, [scenarioType]⟩)) := by
    simp [selectLoop, scenarioEnemy, int32]
  have h0 : RunBehaviour raylibHost scenarioEnemy 0 = .ok scenarioEnemyFired := by
    simp only [RunBehaviour, hsel]
    have hf := scenario_fire scenarioType scenarioEnemy.Projectiles (-120) rfl
      (by simp [scenarioType]) (by norm_num)
    simp only [hf]
    rfl
  have h60 : RunBehaviour raylibHost scenarioEnemyFired 60
      = .ok { scenarioEnemy with
              Projectiles :=
                volley raylibHost scenarioEnemy.centre scenarioType
                  ++ volley raylibHost scenarioEnemy.centre (stepOffset scenarioType)
              Behaviours :=
                [{ Frames := 120,
                   ProjectileTypes := [stepOffset (stepOffset scenarioType)] }] } := by
    have hsel60 : selectLoop scenarioEnemyFired.Behaviours 0 60
        = (-60, some (0, ⟨120, [stepOffset scenarioType]⟩)) := by
      simp [selectLoop, scenarioEnemyFired, int32]
    simp only [RunBehaviour, hsel60]
    have hf := scenario_fire (stepOffset scenarioType) scenarioEnemyFired.Projectiles (-60)
      rfl (by simp [stepOffset, scenarioType]) (by norm_num)
    have hc : scenarioEnemyFired.centre = scenarioEnemy.centre := rfl
    simp only [hc, hf]
    rfl
  refine ⟨⟨hsel, h0⟩,
    (runBehaviour_descriptors raylibHost scenarioEnemy scenarioEnemyFired 0 (-120) 0
      ⟨120, [scenarioType]⟩ hsel h0).2.1,
    rfl, ?_, by decide!, h60⟩
  simp [stepOffset, scenarioType]

/-! ## Pause -/

theorem checkGameOver_pause (g : Game) : (CheckGameOver g).Pause = g.Pause := by
  unfold CheckGameOver
  split <;> rfl

theorem update_paused (host : Host) (keys : Keys) (g : Game) (hgo : g.GameOver = false)
    (hp : (if keys.KeyP then !g.Pause else g.Pause) = true) :
    Update host keys g = .ok { g with Pause := true } := by
  obtain ⟨sw, sh, fr, go, pa, pl, en⟩ := g
  simp only at hgo hp
  subst hgo
  cases hk : keys.KeyP <;> simp_all [Update]

/-- C18, as amended: on a game that is not over, a call of `Update` that
returns leaves the pause flag flipped exactly when the toggle was pressed.
If the game is then paused the call returns the game with nothing else
changed.  If it is then running and the call returns, the frame counter is
the `int32` sum of the old counter and 1, which is the old counter plus 1
whenever that is an `int32`. -/
theorem update_pause (host : Host) (keys : Keys) (g : Game) (hgo : g.GameOver = false) :
    (∀ g1, Update host keys g = .ok g1 →
        g1.Pause = (if keys.KeyP then !g.Pause else g.Pause))
    ∧ ((if keys.KeyP then !g.Pause else g.Pause) = true →
        Update host keys g = .ok { g with Pause := true })
    ∧ ((if keys.KeyP then !g.Pause else g.Pause) = false →
        ∀ g1, Update host keys g = .ok g1 →
          g1.Frames = int32 (g.Frames + 1)
          ∧ (isInt32 (g.Frames + 1) → g1.Frames = g.Frames + 1)) := by
  have hrunning : (if keys.KeyP then !g.Pause else g.Pause) = false →
      ∀ g1, Update host keys g = .ok g1 →
        g1.Pause = false ∧ g1.Frames = int32 (g.Frames + 1) := by
    intro hrun g1 h
    obtain ⟨e1, e2, _, _, hg⟩ := update_running host keys g g1 hgo hrun h
    rw [hg]
    refine ⟨?_, rfl⟩
    show (CheckGameOver _).Pause = false
    rw [checkGameOver_pause]
    rfl
  refine ⟨fun g1 h => ?_, update_paused host keys g hgo, fun hrun g1 h => ?_⟩
  · cases hp : (if keys.KeyP then !g.Pause else g.Pause) with
    | true =>
      rw [update_paused host keys g hgo hp] at h
      rw [← Except.ok.inj h]
    | false => exact (hrunning hp g1 h).1
  · have hf := (hrunning hrun g1 h).2
    exact ⟨hf, fun hin => by rw [hf, int32_eq_self hin]⟩

theorem update_pause_witness :
    (fourHits 0).GameOver = false
    ∧ ((∀ g1, Update raylibHost noKeys (fourHits 0) = .ok g1 →
          g1.Pause = (if noKeys.KeyP then !(fourHits 0).Pause else (fourHits 0).Pause))
      ∧ ((if noKeys.KeyP then !(fourHits 0).Pause else (fourHits 0).Pause) = true →
          Update raylibHost noKeys (fourHits 0) = .ok { fourHits 0 with Pause := true })
      ∧ ((if noKeys.KeyP then !(fourHits 0).Pause else (fourHits 0).Pause) = false →
          ∀ g1, Update raylibHost noKeys (fourHits 0) = .ok g1 →
            g1.Frames = int32 ((fourHits 0).Frames + 1)
            ∧ (isInt32 ((fourHits 0).Frames + 1) → g1.Frames = (fourHits 0).Frames + 1)))
    ∧ Update raylibHost noKeys (fourHits 0) = .ok (fourHits 1)
    ∧ (fourHits 1).Frames = (fourHits 0).Frames + 1
    ∧ Update raylibHost ⟨true, true, false, false, true⟩ (fourHits 0)
        = .ok { fourHits 0 with Pause := true } :=
  ⟨rfl, update_pause raylibHost noKeys (fourHits 0) rfl, fourHits_step 0 (by norm_num),
    by norm_num [fourHits], update_paused raylibHost _ (fourHits 0) rfl rfl⟩

/-- C18, as stated, fails: on the game `lastFrameGame`, which is not over
and not paused and whose frame counter is 2147483647, a call of `Update`
without a key returns the game running with the frame counter at
-2147483648, which is not the old counter plus 1. -/
theorem update_pause_counterexample :
    lastFrameGame.GameOver = false ∧ lastFrameGame.Pause = false
    ∧ lastFrameGame.Frames = 2147483647
    ∧ Update raylibHost noKeys lastFrameGame
        = .ok { lastFrameGame with Frames := -2147483648 } := by
  refine ⟨rfl, rfl, rfl, ?_⟩
  norm_num [Update, noKeys, lastFrameGame, scenarioGame, movePlayer, RunBehaviour,
    selectLoop, scenarioEnemy, UpdateProjectilesPos, pruneLoop, List.range,
    List.range.loop, CheckCollisions, collideLoop, CheckGameOver, int32]

/-! ## The removal loop -/

/-- C19 fails on the code: on the pool `panicPool`, whose two projectiles
both leave the arena, `UpdateProjectilesPos` panics.  The loop removes the
first projectile, which leaves a slice of length 1, and goes on to index 1
of the two it set out to visit; there it reads the second projectile again
from the shared array, finds it out of bounds and evaluates
`e.Projectiles[2:]` on the slice of length 1. -/
theorem updateProjectilesPos_panics :
    UpdateProjectilesPos raylibHost { scenarioEnemy with Projectiles := panicPool }
      = .error .sliceBoundsOutOfRange := by
  norm_num [UpdateProjectilesPos, panicPool, integrate, Projectile.zero, List.range,
    List.range.loop, pruneLoop, CheckOutOfBounds, raylibHost, scenarioHost, removeAt]

/-! ## The radius of the collision test -/

/-- C20, as amended: `CheckCollisions` makes a projectile harmless exactly
when it was not harmless and `CheckCollisionCircleRec` reports the circle at
its position with radius `Sz.X`, the whole width, against the player
rectangle.  With raylib's test a big projectile (`Sz.X = 30`) whose centre is
20 above the player's box hits, and one whose centre is 31 above it does
not. -/
theorem checkCollisions_radius (host : Host) (g : Game) :
    (CheckCollisions host g).Enemy.Projectiles
      = g.Enemy.Projectiles.map (fun proj =>
          if proj.Harmless then proj
          else if host.CheckCollisionCircleRec proj.Pos proj.Sz.X g.playerRect
            then { proj with Harmless := true } else proj)
    ∧ (CheckCollisions raylibHost (nearGame 640)).Enemy.Projectiles = [fallingBig 640 true]
    ∧ (CheckCollisions raylibHost (nearGame 640)).Player.HP = 7
    ∧ CheckCollisions raylibHost (nearGame 629) = nearGame 629 := by
  refine ⟨?_, ?_, ?_, ?_⟩
  · rw [checkCollisions_eq]
    apply List.map_congr_left
    intro proj _
    cases hh : proj.Harmless <;> simp [markHit, hits, hh]
  · norm_num [CheckCollisions, nearGame, scenarioGame, scenarioEnemy, fallingBig, collideLoop,
      Game.playerRect, raylibHost, rlCheckCollisionCircleRec, Flt.fin_div_fin]
  · norm_num [CheckCollisions, nearGame, scenarioGame, scenarioEnemy, fallingBig, collideLoop,
      Game.playerRect, raylibHost, rlCheckCollisionCircleRec, Flt.fin_div_fin, int8]
  · norm_num [CheckCollisions, nearGame, scenarioGame, scenarioEnemy, fallingBig, collideLoop,
      Game.playerRect, raylibHost, rlCheckCollisionCircleRec, Flt.fin_div_fin]

/-- C20, as stated, fails: the big projectile of `nearGame 640` has its
centre 20 above the player's box, which is more than half its width of 30;
raylib's test with radius 15 reports no collision, but `CheckCollisions`
passes the radius 30, takes 3 hit points and makes the projectile
harmless. -/
theorem checkCollisions_radius_counterexample :
    (nearGame 640).Enemy.Projectiles = [fallingBig 640 false]
    ∧ (nearGame 640).playerRect = ⟨Flt.fin 230, Flt.fin 660, Flt.fin 20, Flt.fin 20⟩
    ∧ rlCheckCollisionCircleRec (fallingBig 640 false).Pos
        ((fallingBig 640 false).Sz.X / Flt.fin 2) (nearGame 640).playerRect = false
    ∧ rlCheckCollisionCircleRec (fallingBig 640 false).Pos
        (fallingBig 640 false).Sz.X (nearGame 640).playerRect = true
    ∧ CheckCollisions raylibHost (nearGame 640)
        = { nearGame 640 with
            Player := { (nearGame 640).Player with HP := 7 }
            Enemy := { (nearGame 640).Enemy with Projectiles := [fallingBig 640 true] } } := by
  refine ⟨rfl, rfl, ?_, ?_, ?_⟩
  · norm_num [rlCheckCollisionCircleRec, nearGame, scenarioGame, fallingBig, Game.playerRect,
      Flt.fin_div_fin]
  · norm_num [rlCheckCollisionCircleRec, nearGame, scenarioGame, fallingBig, Game.playerRect,
      Flt.fin_div_fin]
  · norm_num [CheckCollisions, nearGame, scenarioGame, scenarioEnemy, fallingBig, collideLoop,
      Game.playerRect, raylibHost, rlCheckCollisionCircleRec, Flt.fin_div_fin, int8]

end TooHoo
